import Mathlib

/-!
Shallow embedding of the document-data aggregation and recovery pipeline of
the credit-analysis backend (Express server `backend/server.js`, the
`DocumentProcessor` in `backend/services/documentProcessor.js`, the
`OllamaService` JSON-recovery cascade in `backend/services/ollama.js`, and
the `CreditAnalyzer` trend/multi-period analysis in
`backend/services/creditAnalyzer.js`).

JavaScript numbers are modelled as rationals (`ℚ`), with an explicit `nan`
constructor where `NaN` matters; JS dynamic values appearing in merged
structures are modelled by the small `JsPrim` type together with JS
truthiness.  Fallible operations return `Except`/`Option`.
-/

namespace Pipeline

/-- JS primitive values as they occur in extraction records: `null`
(also standing for `undefined` where the two behave alike), finite numbers,
`NaN`, strings and booleans. -/
inductive JsPrim where
  | null : JsPrim
  | num : ℚ → JsPrim
  | nan : JsPrim
  | str : String → JsPrim
  | bool : Bool → JsPrim
deriving DecidableEq, Repr

/-- JS truthiness of a `JsPrim`: `null`/`undefined`, `0`, `NaN`, `""` and
`false` are falsy, everything else truthy. -/
def JsPrim.truthy : JsPrim → Bool
  | .null => false
  | .num q => q ≠ 0
  | .nan => false
  | .str s => s ≠ ""
  | .bool b => b

end Pipeline

namespace Server

/-- Job status values stored in `documentStatus` by `backend/server.js`
(`'pending' | 'processing' | 'completed' | 'error'`). -/
inductive JobStatus where
  | pending : JobStatus
  | processing : JobStatus
  | completed : JobStatus
  | error : JobStatus
deriving DecidableEq, Repr

/-- One entry of the in-memory `documentStatus` map in `backend/server.js`:
the fields the lifecycle mutates (`status`, `progress`, `error`), plus the
filename recorded at upload.  `progress` is a JS number, modelled as `ℚ`. -/
structure DocJob where
  filename : String
  status : JobStatus
  progress : ℚ
  errorMsg : Option String
deriving DecidableEq, Repr

/-- The in-memory `documentStatus` `Map`, keyed by document id. -/
abbrev JobTable := List (String × DocJob)

/-- Read a job from the table (`documentStatus.get(id)`). -/
def lookupJob (t : JobTable) (id : String) : Option DocJob :=
  match t with
  | [] => none
  | (k, v) :: rest => if k = id then some v else lookupJob rest id

/-- Write a job into the table (`documentStatus.set(id, docInfo)`),
overwriting any existing entry for the same id. -/
def setJob (t : JobTable) (id : String) (j : DocJob) : JobTable :=
  match t with
  | [] => [(id, j)]
  | (k, v) :: rest => if k = id then (id, j) :: rest else (k, v) :: setJob rest id j

/-- Job created by the `/upload` route: status `pending`, progress `0`. -/
def uploadJob (filename : String) : DocJob :=
  { filename := filename, status := .pending, progress := 0, errorMsg := none }

/-- Errors of the `/process/:id` route: 404 when the id is unknown, 409 when
the document is already being processed. -/
inductive StartError where
  | notFound : StartError
  | alreadyProcessing : StartError
deriving DecidableEq, Repr

/-- The synchronous part of `app.post('/process/:id')` in
`backend/server.js`: reject with 404 if the id is unknown, with 409 if the
job is already `processing`; otherwise set the job to `processing` with
progress `10` (the background processing itself is modelled separately by
`processDocumentAsync`).  The returned table is the `documentStatus` map
after the route handler ran; on an error reply the map is untouched. -/
def startProcessing (t : JobTable) (id : String) : Except StartError Unit × JobTable :=
  match lookupJob t id with
  | none => (.error .notFound, t)
  | some j =>
    if j.status = .processing then
      (.error .alreadyProcessing, t)
    else
      (.ok (), setJob t id { j with status := .processing, progress := 10 })

/-- Terminal error update performed by the `catch` block of
`processDocumentAsync`: status `error`, the error's message, progress `0`. -/
def errorJob (j : DocJob) (msg : String) : DocJob :=
  { j with status := .error, errorMsg := some msg, progress := 0 }

/-- The per-page extraction loop of `processDocumentAsync`: pages are
processed in order; after page `i+1` of `n` the job's progress is set to
`40 + 50 * (i+1) / n`.  The first page whose extraction fails aborts the
loop with that error (before any progress update for it).  Returns the
trace of job states written during the loop together with either the
collected per-page results or the first error. -/
def pageLoop (n : ℕ) (job : DocJob) (i : ℕ) :
    List (Except String α) → List DocJob × Except String (List α)
  | [] => ([], .ok [])
  | r :: rest =>
    match r with
    | .error e => ([], .error e)
    | .ok a =>
      let j' := { job with progress := 40 + 50 * ((i : ℚ) + 1) / (n : ℚ) }
      let (tr, res) := pageLoop n j' (i + 1) rest
      (j' :: tr, (res.map (fun l => a :: l)))

/-- Model of `processDocumentAsync` in `backend/server.js`.  The external
collaborators are abstracted: `conv` is the outcome of
`documentProcessor.convertToImages` presented as the ordered list of
per-page extraction outcomes (each `ollamaService.extractDataFromImage`
call either yields a record of type `α` or throws), and `combine` is
`documentProcessor.combineExtractedData`.  Returns the trace of job states
written to `documentStatus` (in order) and the data stored in
`extractedData` (set only after all pages succeeded and were combined). -/
def processDocumentAsync (job : DocJob) (conv : Except String (List (Except String α)))
    (combine : List α → β) : List DocJob × Option β :=
  let jA := { job with progress := 20 }
  match conv with
  | .error e => ([jA, errorJob jA e], none)
  | .ok pages =>
    let jB := { jA with progress := 40 }
    let n := pages.length
    let tr := (pageLoop n jB 0 pages).1
    match (pageLoop n jB 0 pages).2 with
    | .error e =>
      let cur := tr.getLastD jB
      ([jA, jB] ++ tr ++ [errorJob cur e], none)
    | .ok recs =>
      let cur := tr.getLastD jB
      let jC := { cur with progress := 95 }
      let jD := { jC with status := .completed, progress := 100 }
      ([jA, jB] ++ tr ++ [jC, jD], some (combine recs))

/-- Full sequence of states one document's `documentStatus` entry goes
through: the `pending` state from `/upload`, the `processing` state with
progress `10` from `/process/:id`, then every state written by
`processDocumentAsync`. -/
def lifecycleTrace (filename : String) (conv : Except String (List (Except String α)))
    (combine : List α → β) : List DocJob × Option β :=
  let j0 := uploadJob filename
  let j1 := { j0 with status := .processing, progress := 10 }
  (j0 :: j1 :: (processDocumentAsync j1 conv combine).1,
   (processDocumentAsync j1 conv combine).2)

/-- Reply of `app.get('/status/:id')`: status, progress, the error message
when present, and — only when the status is `completed` — the stored
extracted data. -/
structure StatusResponse (β : Type _) where
  status : JobStatus
  progress : ℚ
  errorMsg : Option String
  extractedData : Option β

/-- Model of `app.get('/status/:id')` in `backend/server.js`: 404 on an
unknown id; otherwise the job's status and progress, its error message if
any, and the extracted data only when the job is `completed`. -/
def statusHandler (t : JobTable) (data : List (String × β)) (id : String) :
    Except Unit (StatusResponse β) :=
  match lookupJob t id with
  | none => .error ()
  | some j =>
    .ok { status := j.status, progress := j.progress, errorMsg := j.errorMsg,
          extractedData := if j.status = .completed then List.lookup id data else none }

/-- First error in a list of page outcomes, if any. -/
def firstPageError : List (Except String α) → Option String
  | [] => none
  | .error e :: _ => some e
  | .ok _ :: rest => firstPageError rest

/-- Number of successful pages processed before the first failing one
(the whole length when no page fails). -/
def okCount : List (Except String α) → ℕ
  | [] => 0
  | .error _ :: _ => 0
  | .ok _ :: rest => okCount rest + 1

theorem okCount_of_noError : ∀ {rem : List (Except String α)},
    firstPageError rem = none → okCount rem = rem.length
  | [], _ => rfl
  | .ok _ :: rest, h => by
      simp only [okCount, List.length_cons]
      exact congrArg (· + 1) (okCount_of_noError (by simpa [firstPageError] using h))

theorem progress_update_collapse (j : DocJob) (a b : ℚ) :
    ({ { j with progress := a } with progress := b } : DocJob) = { j with progress := b } := rfl

theorem errorJob_update_collapse (j : DocJob) (a : ℚ) (e : String) :
    errorJob { j with progress := a } e =
      { j with status := .error, errorMsg := some e, progress := 0 } := rfl

theorem progress_status_collapse (j : DocJob) (a b : ℚ) (s : JobStatus) :
    ({ { j with progress := a } with status := s, progress := b } : DocJob) =
      { j with status := s, progress := b } := rfl

/-- Trace of states written by the page loop: one state per successfully
processed page, progress `40 + 50 * (k+1) / n` for the `k`-th page counted
from argument `i`. -/
theorem pageLoop_fst (n : ℕ) : ∀ (rem : List (Except String α)) (i : ℕ) (job : DocJob),
    (pageLoop n job i rem).1 =
      (List.range (okCount rem)).map
        (fun k => { job with progress := 40 + 50 * (((i + k : ℕ) : ℚ) + 1) / (n : ℚ) })
  | [], _, _ => rfl
  | .error _ :: _, _, _ => rfl
  | .ok a :: rest, i, job => by
      simp only [pageLoop, okCount, List.range_succ_eq_map, List.map_cons, List.map_map]
      refine List.cons_eq_cons.mpr ⟨by simp, ?_⟩
      rw [pageLoop_fst n rest (i + 1)]
      refine List.map_congr_left fun k _ => ?_
      simp only [Function.comp, progress_update_collapse]
      have : ((i + 1 + k : ℕ) : ℚ) = ((i + (k + 1) : ℕ) : ℚ) := by push_cast; ring
      rw [this]

theorem pageLoop_snd_err (n : ℕ) : ∀ (rem : List (Except String α)) (i : ℕ) (job : DocJob)
    (e : String), firstPageError rem = some e → (pageLoop n job i rem).2 = .error e
  | .error _ :: _, _, _, _, h => by
      simp only [firstPageError, Option.some.injEq] at h
      subst h
      rfl
  | .ok a :: rest, i, job, e, h => by
      simp only [firstPageError] at h
      have := pageLoop_snd_err n rest (i + 1)
        { job with progress := 40 + 50 * ((i : ℚ) + 1) / (n : ℚ) } e h
      simp [pageLoop, this, Except.map]

theorem pageLoop_snd_ok (n : ℕ) : ∀ (rem : List (Except String α)) (i : ℕ) (job : DocJob),
    firstPageError rem = none → ∃ l, (pageLoop n job i rem).2 = .ok l
  | [], _, _, _ => ⟨[], rfl⟩
  | .error _ :: _, _, _, h => by simp [firstPageError] at h
  | .ok a :: rest, i, job, h => by
      simp only [firstPageError] at h
      obtain ⟨l, hl⟩ := pageLoop_snd_ok n rest (i + 1)
        { job with progress := 40 + 50 * ((i : ℚ) + 1) / (n : ℚ) } h
      exact ⟨a :: l, by simp [pageLoop, hl, Except.map]⟩

/-- Abbreviation for the page-progress values `40 + 50 * (k+1) / n`. -/
def pageProgress (n k : ℕ) : ℚ := 40 + 50 * ((k : ℚ) + 1) / (n : ℚ)

theorem pageLoop_fst_top (n : ℕ) (pages : List (Except String α)) (job : DocJob) :
    (pageLoop n { job with progress := 40 } 0 pages).1 =
      (List.range (okCount pages)).map (fun k => { job with progress := pageProgress n k }) := by
  rw [pageLoop_fst]
  exact List.map_congr_left fun k _ => by
    simp [progress_update_collapse, pageProgress]

theorem getLastD_range_map (d : α) (f : ℕ → α) :
    ∀ m : ℕ, ((List.range m).map f).getLastD d = if m = 0 then d else f (m - 1)
  | 0 => rfl
  | m + 1 => by
      simp [List.range_succ, List.getLastD_concat]

/-- Explicit form of the `processDocumentAsync` trace when every page
succeeds: progress `20`, `40`, the per-page values, `95`, then the
`completed` state with progress `100`; the combined data is stored. -/
theorem processDocumentAsync_ok (job : DocJob) (pages : List (Except String α))
    (combine : List α → β) (h : firstPageError pages = none) :
    (processDocumentAsync job (.ok pages) combine).1 =
      [{ job with progress := 20 }, { job with progress := 40 }] ++
        (List.range pages.length).map
          (fun k => { job with progress := pageProgress pages.length k }) ++
      [{ job with progress := 95 }, { job with status := .completed, progress := 100 }] ∧
    ∃ d, (processDocumentAsync job (.ok pages) combine).2 = some d := by
  obtain ⟨l, hl⟩ := pageLoop_snd_ok pages.length pages 0 { job with progress := 40 } h
  have htr := pageLoop_fst_top pages.length pages job
  have hcnt := okCount_of_noError h
  have hlast : ∀ p : ℚ,
      ({ ((List.range pages.length).map
            (fun k => { job with progress := pageProgress pages.length k })).getLastD
          { job with progress := 40 } with progress := p } : DocJob) =
        { job with progress := p } := by
    intro p
    rw [getLastD_range_map]
    by_cases hm : pages.length = 0 <;> simp [hm, progress_update_collapse]
  have hlast2 : ∀ (p : ℚ) (s : JobStatus),
      ({ ((List.range pages.length).map
            (fun k => { job with progress := pageProgress pages.length k })).getLastD
          { job with progress := 40 } with status := s, progress := p } : DocJob) =
        { job with status := s, progress := p } := by
    intro p s
    rw [getLastD_range_map]
    by_cases hm : pages.length = 0 <;> simp [hm, progress_status_collapse]
  constructor
  · simp only [processDocumentAsync, hl, htr, hcnt, hlast, hlast2]
  · exact ⟨combine l, by simp [processDocumentAsync, hl]⟩

/-- Explicit form of the `processDocumentAsync` trace when some page fails
with first error `e`: progress `20`, `40`, the per-page values for the
pages that succeeded before the failure, then the terminal `error` state
with message `e` and progress `0`; nothing is stored. -/
theorem processDocumentAsync_err (job : DocJob) (pages : List (Except String α))
    (combine : List α → β) (e : String) (h : firstPageError pages = some e) :
    (processDocumentAsync job (.ok pages) combine).1 =
      [{ job with progress := 20 }, { job with progress := 40 }] ++
        (List.range (okCount pages)).map
          (fun k => { job with progress := pageProgress pages.length k }) ++
      [{ job with status := .error, errorMsg := some e, progress := 0 }] ∧
    (processDocumentAsync job (.ok pages) combine).2 = none := by
  have hl := pageLoop_snd_err pages.length pages 0 { job with progress := 40 } e h
  have htr := pageLoop_fst_top pages.length pages job
  have hlast :
      errorJob (((List.range (okCount pages)).map
            (fun k => { job with progress := pageProgress pages.length k })).getLastD
          { job with progress := 40 }) e =
        { job with status := .error, errorMsg := some e, progress := 0 } := by
    rw [getLastD_range_map]
    by_cases hm : okCount pages = 0 <;> simp [hm, errorJob_update_collapse]
  constructor
  · simp only [processDocumentAsync, hl, htr, hlast]
  · simp [processDocumentAsync, hl]

theorem processDocumentAsync_convErr (job : DocJob) (e : String) (combine : List α → β) :
    processDocumentAsync job (.error e) combine =
      ([{ job with progress := 20 },
        { job with status := .error, errorMsg := some e, progress := 0 }], none) := rfl

theorem lookupJob_setJob : ∀ (t : JobTable) (id : String) (j : DocJob),
    lookupJob (setJob t id j) id = some j
  | [], id, j => by simp [setJob, lookupJob]
  | (k, v) :: rest, id, j => by
      by_cases h : k = id <;> simp [setJob, lookupJob, h, lookupJob_setJob rest]

theorem pageProgress_ge_40 (n k : ℕ) : (40 : ℚ) ≤ pageProgress n k := by
  have h : (0 : ℚ) ≤ 50 * ((k : ℚ) + 1) / (n : ℚ) :=
    div_nonneg (by positivity) (Nat.cast_nonneg n)
  unfold pageProgress
  linarith

theorem pageProgress_le_90 {n k : ℕ} (h : k < n) : pageProgress n k ≤ 90 := by
  have hn : (0 : ℚ) < (n : ℚ) := by
    exact_mod_cast Nat.lt_of_le_of_lt (Nat.zero_le k) h
  have hk : ((k : ℚ) + 1) ≤ (n : ℚ) := by exact_mod_cast Nat.succ_le_of_lt h
  have : 50 * ((k : ℚ) + 1) / (n : ℚ) ≤ 50 := by
    rw [div_le_iff₀ hn]
    nlinarith
  unfold pageProgress
  linarith

theorem pageProgress_mono (n : ℕ) {k k' : ℕ} (h : k ≤ k') :
    pageProgress n k ≤ pageProgress n k' := by
  rcases Nat.eq_zero_or_pos n with hn | hn
  · subst hn
    simp [pageProgress]
  · have hn' : (0 : ℚ) < (n : ℚ) := by exact_mod_cast hn
    have hk : ((k : ℚ) + 1) ≤ ((k' : ℚ) + 1) := by
      have : (k : ℚ) ≤ (k' : ℚ) := by exact_mod_cast h
      linarith
    unfold pageProgress
    gcongr

/-- Progress values of the full lifecycle trace when every page succeeds. -/
theorem map_progress_ok (filename : String) (pages : List (Except String α))
    (combine : List α → β) (h : firstPageError pages = none) :
    (lifecycleTrace filename (.ok pages) combine).1.map DocJob.progress =
      [0, 10, 20, 40] ++ ((List.range pages.length).map (pageProgress pages.length) ++
        [95, 100]) := by
  simp [lifecycleTrace, uploadJob, (processDocumentAsync_ok _ pages combine h).1,
    List.map_append, List.map_map, Function.comp]

/-- Progress values of the full lifecycle trace when a page fails. -/
theorem map_progress_err (filename : String) (pages : List (Except String α))
    (combine : List α → β) (e : String) (h : firstPageError pages = some e) :
    (lifecycleTrace filename (.ok pages) combine).1.map DocJob.progress =
      [0, 10, 20, 40] ++ ((List.range (okCount pages)).map (pageProgress pages.length) ++
        [0]) := by
  simp [lifecycleTrace, uploadJob, (processDocumentAsync_err _ pages combine e h).1,
    List.map_append, List.map_map, Function.comp]

theorem chain_le_core (n m : ℕ) :
    List.Chain' (· ≤ ·) (([0, 10, 20, 40] : List ℚ) ++ (List.range m).map (pageProgress n)) := by
  refine List.Chain'.append ?_ ?_ ?_
  · norm_num [List.chain'_cons]
  · rw [List.chain'_map]
    cases m with
    | zero => simp
    | succ k =>
        exact (List.chain'_range_succ _ k).2 fun i _ => pageProgress_mono n (Nat.le_succ i)
  · intro x hx y hy
    cases m with
    | zero => simp at hy
    | succ k =>
        simp only [List.range_succ_eq_map, List.map_cons, List.head?_cons,
          Option.mem_def, Option.some.injEq] at hy
        simp only [List.getLast?_cons_cons, List.getLast?_singleton, Option.mem_def,
          Option.some.injEq] at hx
        subst hy
        rw [← hx]
        exact pageProgress_ge_40 n 0

theorem getLast?_core (n m : ℕ) (hmn : m ≤ n) (x : ℚ)
    (hx : x ∈ (([0, 10, 20, 40] : List ℚ) ++ (List.range m).map (pageProgress n)).getLast?) :
    x ≤ 90 ∨ x = 40 := by
  cases m with
  | zero => simp_all
  | succ k =>
      left
      simp only [List.range_succ, List.map_append, List.map_cons, List.map_nil,
        ← List.append_assoc, List.getLast?_concat, Option.mem_def, Option.some.injEq] at hx
      subst hx
      exact pageProgress_le_90 (Nat.lt_of_lt_of_le (Nat.lt_succ_self k) hmn)

theorem okCount_le_length : ∀ rem : List (Except String α), okCount rem ≤ rem.length
  | [] => le_refl _
  | .error _ :: _ => Nat.zero_le _
  | .ok _ :: rest => Nat.succ_le_succ (okCount_le_length rest)

/-- C3: `start(id)` on a job whose current state is `processing` is rejected
with `AlreadyProcessing` and leaves the job table — hence the job's status
and progress — unchanged; `start(id)` on an unknown id fails with
`NotFound`; otherwise `start(id)` transitions the job to `processing` with
progress reset to the small nonzero value `10`. -/
theorem start_rejects_duplicate_and_unknown (t : JobTable) (id : String) :
    (lookupJob t id = none → startProcessing t id = (.error .notFound, t)) ∧
    (∀ j, lookupJob t id = some j → j.status = .processing →
      startProcessing t id = (.error .alreadyProcessing, t)) ∧
    (∀ j, lookupJob t id = some j → j.status ≠ .processing →
      startProcessing t id =
        (.ok (), setJob t id { j with status := .processing, progress := 10 }) ∧
      lookupJob (startProcessing t id).2 id =
        some { j with status := .processing, progress := 10 } ∧ (0 : ℚ) < 10) := by
  refine ⟨fun h => by simp [startProcessing, h],
    fun j hj hs => by simp [startProcessing, hj, hs], fun j hj hs => ?_⟩
  have hrun : startProcessing t id =
      (.ok (), setJob t id { j with status := .processing, progress := 10 }) := by
    simp [startProcessing, hj, hs]
  exact ⟨hrun, by rw [hrun]; exact lookupJob_setJob t id _, by norm_num⟩

theorem start_rejects_duplicate_and_unknown_witness :
    startProcessing [("a", ⟨"f.pdf", .processing, 42, none⟩)] "a" =
      (.error .alreadyProcessing, [("a", ⟨"f.pdf", .processing, 42, none⟩)]) ∧
    startProcessing [("a", ⟨"f.pdf", .processing, 42, none⟩)] "b" =
      (.error .notFound, [("a", ⟨"f.pdf", .processing, 42, none⟩)]) ∧
    startProcessing [("a", ⟨"f.pdf", .pending, 0, none⟩)] "a" =
      (.ok (), [("a", ⟨"f.pdf", .processing, 10, none⟩)]) := by
  refine ⟨(start_rejects_duplicate_and_unknown _ "a").2.1
      ⟨"f.pdf", .processing, 42, none⟩ (by decide) rfl,
    (start_rejects_duplicate_and_unknown _ "b").1 (by decide), ?_⟩
  have h := ((start_rejects_duplicate_and_unknown
      [("a", ⟨"f.pdf", .pending, 0, none⟩)] "a").2.2
    ⟨"f.pdf", .pending, 0, none⟩ (by decide) (by decide)).1
  rw [h]
  simp [setJob]

/-- C4: any unrecoverable error while processing a document's pages —
a conversion failure or the first failing page extraction — drives the job
to a terminal state with status `error`, that error's message and progress
`0`; nothing is stored in `extractedData`; and `status(id)` includes
extracted data only when the job's status is `completed`. -/
theorem error_terminal_state_and_exposure (filename : String)
    (conv : Except String (List (Except String α))) (combine : List α → β) (e : String)
    (h : conv = .error e ∨ ∃ pages, conv = .ok pages ∧ firstPageError pages = some e) :
    (∃ tr', (lifecycleTrace filename conv combine).1 =
        tr' ++ [{ filename := filename, status := .error, progress := 0,
                  errorMsg := some e }]) ∧
    (lifecycleTrace filename conv combine).2 = none ∧
    (∀ (t : JobTable) (data : List (String × β)) (id : String) (r : StatusResponse β),
      statusHandler t data id = .ok r → r.status ≠ .completed → r.extractedData = none) := by
  have hexpose : ∀ (t : JobTable) (data : List (String × β)) (id : String)
      (r : StatusResponse β),
      statusHandler t data id = .ok r → r.status ≠ .completed → r.extractedData = none := by
    intro t data id r hr hne
    rcases hl : lookupJob t id with _ | j
    · rw [statusHandler, hl] at hr
      cases hr
    · rw [statusHandler, hl] at hr
      cases hr
      simp only at hne ⊢
      rw [if_neg hne]
  rcases h with rfl | ⟨pages, rfl, hfe⟩
  · refine ⟨⟨[{ filename := filename, status := .pending, progress := 0, errorMsg := none },
        { filename := filename, status := .processing, progress := 10, errorMsg := none },
        { filename := filename, status := .processing, progress := 20, errorMsg := none }],
        by simp [lifecycleTrace, processDocumentAsync_convErr, uploadJob, errorJob]⟩,
      by simp [lifecycleTrace, processDocumentAsync_convErr], hexpose⟩
  · obtain ⟨htr, hst⟩ := processDocumentAsync_err
      { filename := filename, status := .processing, progress := 10, errorMsg := none }
      pages combine e hfe
    refine ⟨⟨[{ filename := filename, status := .pending, progress := 0, errorMsg := none },
        { filename := filename, status := .processing, progress := 10, errorMsg := none },
        { filename := filename, status := .processing, progress := 20, errorMsg := none },
        { filename := filename, status := .processing, progress := 40, errorMsg := none }] ++
        (List.range (okCount pages)).map (fun k =>
          { filename := filename, status := .processing,
            progress := pageProgress pages.length k, errorMsg := none }), ?_⟩,
      by simp [lifecycleTrace, uploadJob, hst], hexpose⟩
    simp [lifecycleTrace, uploadJob, htr]

theorem error_terminal_state_and_exposure_witness :
    (lifecycleTrace "doc.pdf" (.ok [.ok (), .error "boom", .ok ()])
      (fun _ : List Unit => ())).2 = none ∧
    ∃ tr', (lifecycleTrace "doc.pdf" (.ok [.ok (), .error "boom", .ok ()])
      (fun _ : List Unit => ())).1 =
        tr' ++ [{ filename := "doc.pdf", status := .error, progress := 0,
                  errorMsg := some "boom" }] := by
  have h := error_terminal_state_and_exposure "doc.pdf"
    (.ok [.ok (), .error "boom", .ok ()]) (fun _ : List Unit => ()) "boom"
    (.inr ⟨_, rfl, rfl⟩)
  exact ⟨h.2.1, h.1⟩

theorem chain_success (n : ℕ) :
    List.Chain' (· ≤ ·) (([0, 10, 20, 40] : List ℚ) ++
      ((List.range n).map (pageProgress n) ++ [95, 100])) := by
  rw [← List.append_assoc]
  refine List.Chain'.append (chain_le_core n n) (by norm_num [List.chain'_cons]) ?_
  intro x hx y hy
  simp only [List.head?_cons, Option.mem_def, Option.some.injEq] at hy
  subst hy
  rcases getLast?_core n n le_rfl x hx with h | h
  · linarith
  · rw [h]; norm_num

theorem mem_core_bounds {n m : ℕ} (hmn : m ≤ n) {p : ℚ}
    (hp : p ∈ ([0, 10, 20, 40] : List ℚ) ++ (List.range m).map (pageProgress n)) :
    0 ≤ p ∧ p ≤ 100 := by
  simp only [List.mem_append, List.mem_cons, List.mem_map, List.mem_range,
    List.not_mem_nil, or_false] at hp
  rcases hp with (rfl | rfl | rfl | rfl) | ⟨k, hk, rfl⟩
  · norm_num
  · norm_num
  · norm_num
  · norm_num
  · have h1 := pageProgress_ge_40 n k
    have h2 := pageProgress_le_90 (Nat.lt_of_lt_of_le hk hmn)
    constructor <;> linarith

/-- Relation "progress does not decrease" on job states. -/
def progressLe (a b : DocJob) : Prop := a.progress ≤ b.progress

theorem chain'_progressLe_iff (l : List DocJob) :
    List.Chain' progressLe l ↔ List.Chain' (· ≤ ·) (l.map DocJob.progress) :=
  (List.chain'_map DocJob.progress).symm

/-- C9 (amended): throughout a document's lifecycle the job's progress is a
number (not necessarily an integer) in `0`–`100`; it is monotonically
non-decreasing from enqueue up to the last state before the terminal one
(and through the terminal state itself on the success path — only the
transition into the terminal `error` state resets progress to `0`);
after page `i+1` of `n` pages the intermediate value equals the fixed base
`40` plus the proportional remainder `50 · (i+1)/n`; and progress is `100`
only in the `completed` state. -/
theorem progress_monotone_bounds (filename : String)
    (conv : Except String (List (Except String α))) (combine : List α → β) :
    (∀ j ∈ (lifecycleTrace filename conv combine).1, 0 ≤ j.progress ∧ j.progress ≤ 100) ∧
    List.Chain' progressLe (lifecycleTrace filename conv combine).1.dropLast ∧
    ((lifecycleTrace filename conv combine).2.isSome →
      List.Chain' progressLe (lifecycleTrace filename conv combine).1) ∧
    (∀ j ∈ (lifecycleTrace filename conv combine).1, j.progress = 100 →
      j.status = .completed) ∧
    (∀ pages, conv = .ok pages → firstPageError pages = none → ∀ k < pages.length,
      pageProgress pages.length k ∈
        (lifecycleTrace filename conv combine).1.map DocJob.progress) := by
  rcases conv with e | pages
  · have htr : (lifecycleTrace filename (.error e) combine).1 =
        [{ filename := filename, status := .pending, progress := 0, errorMsg := none },
         { filename := filename, status := .processing, progress := 10, errorMsg := none },
         { filename := filename, status := .processing, progress := 20, errorMsg := none },
         { filename := filename, status := .error, progress := 0, errorMsg := some e }] := by
      simp [lifecycleTrace, processDocumentAsync_convErr, uploadJob, errorJob]
    have hst : (lifecycleTrace filename (.error e) combine).2 = none := by
      simp [lifecycleTrace, processDocumentAsync_convErr]
    refine ⟨?_, ?_, ?_, ?_, ?_⟩
    · intro j hj
      rw [htr] at hj
      simp only [List.mem_cons, List.not_mem_nil, or_false] at hj
      rcases hj with rfl | rfl | rfl | rfl
      · exact ⟨le_refl 0, by norm_num⟩
      · norm_num
      · norm_num
      · exact ⟨le_refl 0, by norm_num⟩
    · rw [htr]
      norm_num [List.dropLast, List.chain'_cons, progressLe]
    · rw [hst]
      intro h
      cases h
    · intro j hj hp
      rw [htr] at hj
      simp only [List.mem_cons, List.not_mem_nil, or_false] at hj
      rcases hj with rfl | rfl | rfl | rfl
      · norm_num at hp
      · norm_num at hp
      · norm_num at hp
      · norm_num at hp
    · intro pages h
      cases h
  · rcases hfe : firstPageError pages with _ | e
    · -- every page succeeds
      obtain ⟨htr0, d, hst⟩ := processDocumentAsync_ok
        { filename := filename, status := .processing, progress := 10, errorMsg := none }
        pages combine hfe
      have htr : (lifecycleTrace filename (.ok pages) combine).1 =
          [{ filename := filename, status := .pending, progress := 0, errorMsg := none },
           { filename := filename, status := .processing, progress := 10, errorMsg := none },
           { filename := filename, status := .processing, progress := 20, errorMsg := none },
           { filename := filename, status := .processing, progress := 40, errorMsg := none }] ++
          ((List.range pages.length).map (fun k =>
            { filename := filename, status := .processing,
              progress := pageProgress pages.length k, errorMsg := none }) ++
           [{ filename := filename, status := .processing, progress := 95, errorMsg := none },
            { filename := filename, status := .completed, progress := 100,
              errorMsg := none }]) := by
        simp [lifecycleTrace, uploadJob, htr0]
      have hmap := map_progress_ok filename pages combine hfe
      have hchainQ := chain_success pages.length
      have hchain : List.Chain' progressLe (lifecycleTrace filename (.ok pages) combine).1 := by
        rw [chain'_progressLe_iff, hmap]
        exact hchainQ
      refine ⟨?_, hchain.init, fun _ => hchain, ?_, ?_⟩
      · intro j hj
        have hp := List.mem_map_of_mem DocJob.progress hj
        rw [hmap] at hp
        rw [← List.append_assoc] at hp
        rcases List.mem_append.1 hp with hp | hp
        · exact mem_core_bounds le_rfl hp
        · simp only [List.mem_cons, List.not_mem_nil, or_false] at hp
          rcases hp with hp | hp <;> constructor <;> rw [hp] <;> norm_num
      · intro j hj hp
        rw [htr] at hj
        rcases List.mem_append.1 hj with hj | hj
        · simp only [List.mem_cons, List.not_mem_nil, or_false] at hj
          rcases hj with rfl | rfl | rfl | rfl
          · norm_num at hp
          · norm_num at hp
          · norm_num at hp
          · norm_num at hp
        · rcases List.mem_append.1 hj with hj | hj
          · obtain ⟨k, hk, rfl⟩ := List.mem_map.1 hj
            have := pageProgress_le_90 (List.mem_range.1 hk)
            simp only at hp
            rw [hp] at this
            norm_num at this
          · simp only [List.mem_cons, List.not_mem_nil, or_false] at hj
            rcases hj with rfl | rfl
            · norm_num at hp
            · rfl
      · intro pages' hp hfe' k hk
        cases hp
        rw [hmap]
        rw [← List.append_assoc]
        refine List.mem_append.2 (.inl (List.mem_append.2 (.inr ?_)))
        exact List.mem_map.2 ⟨k, List.mem_range.2 hk, rfl⟩
    · -- some page fails with first error `e`
      obtain ⟨htr0, hst0⟩ := processDocumentAsync_err
        { filename := filename, status := .processing, progress := 10, errorMsg := none }
        pages combine e hfe
      have htr : (lifecycleTrace filename (.ok pages) combine).1 =
          ([{ filename := filename, status := .pending, progress := 0, errorMsg := none },
            { filename := filename, status := .processing, progress := 10, errorMsg := none },
            { filename := filename, status := .processing, progress := 20, errorMsg := none },
            { filename := filename, status := .processing, progress := 40, errorMsg := none }] ++
           (List.range (okCount pages)).map (fun k =>
             { filename := filename, status := .processing,
               progress := pageProgress pages.length k, errorMsg := none })) ++
          [{ filename := filename, status := .error, progress := 0,
             errorMsg := some e }] := by
        simp [lifecycleTrace, uploadJob, htr0]
      have hst : (lifecycleTrace filename (.ok pages) combine).2 = none := by
        simp [lifecycleTrace, uploadJob, hst0]
      have hok := okCount_le_length pages
      refine ⟨?_, ?_, ?_, ?_, ?_⟩
      · intro j hj
        rw [htr] at hj
        rcases List.mem_append.1 hj with hj | hj
        · have hp := List.mem_map_of_mem DocJob.progress hj
          rw [List.map_append] at hp
          have : (List.map DocJob.progress
              [({ filename := filename, status := .pending, progress := 0,
                  errorMsg := none } : DocJob),
               { filename := filename, status := .processing, progress := 10, errorMsg := none },
               { filename := filename, status := .processing, progress := 20, errorMsg := none },
               { filename := filename, status := .processing, progress := 40,
                 errorMsg := none }]) = ([0, 10, 20, 40] : List ℚ) := by norm_num
          rw [this, List.map_map] at hp
          refine mem_core_bounds hok ?_
          convert hp using 3
        · simp only [List.mem_cons, List.not_mem_nil, or_false] at hj
          subst hj
          exact ⟨le_refl 0, by norm_num⟩
      · rw [htr, List.dropLast_concat, chain'_progressLe_iff, List.map_append]
        have : (List.map DocJob.progress
            [({ filename := filename, status := .pending, progress := 0,
                errorMsg := none } : DocJob),
             { filename := filename, status := .processing, progress := 10, errorMsg := none },
             { filename := filename, status := .processing, progress := 20, errorMsg := none },
             { filename := filename, status := .processing, progress := 40,
               errorMsg := none }]) = ([0, 10, 20, 40] : List ℚ) := by norm_num
        rw [this, List.map_map]
        have hcore := chain_le_core pages.length (okCount pages)
        convert hcore using 2
      · rw [hst]
        intro h
        cases h
      · intro j hj hp
        rw [htr] at hj
        rcases List.mem_append.1 hj with hj | hj
        · rcases List.mem_append.1 hj with hj | hj
          · simp only [List.mem_cons, List.not_mem_nil, or_false] at hj
            rcases hj with rfl | rfl | rfl | rfl
            · norm_num at hp
            · norm_num at hp
            · norm_num at hp
            · norm_num at hp
          · obtain ⟨k, hk, rfl⟩ := List.mem_map.1 hj
            have := pageProgress_le_90 (Nat.lt_of_lt_of_le (List.mem_range.1 hk) hok)
            simp only at hp
            rw [hp] at this
            norm_num at this
        · simp only [List.mem_cons, List.not_mem_nil, or_false] at hj
          subst hj
          norm_num at hp
      · intro pages' hp hfe' k hk
        cases hp
        rw [hfe] at hfe'
        cases hfe'

theorem progress_monotone_bounds_witness :
    pageProgress 3 0 ∈ (lifecycleTrace "doc.pdf"
      (.ok [.ok (), .ok (), .ok ()]) (fun _ : List Unit => ())).1.map DocJob.progress ∧
    (0 : ℚ) ≤ (uploadJob "doc.pdf").progress := by
  have h := progress_monotone_bounds "doc.pdf"
    (.ok [.ok (), .ok (), .ok ()]) (fun _ : List Unit => ())
  refine ⟨h.2.2.2.2 _ rfl rfl 0 (by norm_num), ?_⟩
  exact (h.1 (uploadJob "doc.pdf") (by simp [lifecycleTrace])).1

/-- C9 counterexample: progress is not always an integer.  With 3 pages the
intermediate progress after the first page is `40 + 50 · 1/3 = 170/3`,
which occurs in the lifecycle trace and is not an integer. -/
theorem progress_integer_cex :
    (170 / 3 : ℚ) ∈ (lifecycleTrace "doc.pdf" (.ok [.ok (), .ok (), .ok ()])
      (fun _ : List Unit => ())).1.map DocJob.progress ∧
    ¬ ∃ z : ℤ, (170 / 3 : ℚ) = (z : ℚ) := by
  constructor
  · have h := map_progress_ok "doc.pdf" [.ok (), .ok (), .ok ()]
      (fun _ : List Unit => ()) rfl
    rw [h]
    refine List.mem_append.2 (.inr (List.mem_append.2 (.inl ?_)))
    refine List.mem_map.2 ⟨0, List.mem_range.2 (by norm_num), ?_⟩
    show pageProgress ([Except.ok (), .ok (), .ok ()] : List (Except String Unit)).length 0 =
      170 / 3
    norm_num [pageProgress]
  · rintro ⟨z, hz⟩
    rw [div_eq_iff (by norm_num : (3 : ℚ) ≠ 0)] at hz
    have h' : (170 : ℤ) = z * 3 := by exact_mod_cast hz
    omega

end Server

namespace Pipeline

/-- Simple decimal-literal semantics of JS `Number(string)`: optional sign,
digits with an optional fractional part, surrounded by whitespace; the empty
(or all-whitespace) string converts to `0`; anything else is `NaN`
(`none`).  Exotic forms (hex, exponents, `Infinity`) are outside the
modelled input range. -/
def parseDec (chars : List Char) : Option ℚ :=
  let digits := fun (l : List Char) => l.all Char.isDigit
  let val := fun (l : List Char) =>
    l.foldl (fun acc c => acc * 10 + ((c.toNat - '0'.toNat : ℕ) : ℚ)) 0
  match chars.span Char.isDigit with
  | (intPart, []) =>
    if intPart = [] then none else some (val intPart)
  | (intPart, '.' :: fracPart) =>
    if digits fracPart ∧ ¬(intPart = [] ∧ fracPart = []) then
      some (val intPart + val fracPart / (10 : ℚ) ^ fracPart.length)
    else none
  | _ => none

/-- JS `Number(string)` for the modelled string forms. -/
def jsStringToNum (s : String) : Option ℚ :=
  let t := (s.toList.dropWhile Char.isWhitespace).reverse.dropWhile Char.isWhitespace |>.reverse
  match t with
  | [] => some 0
  | '-' :: rest => (parseDec rest).map Neg.neg
  | '+' :: rest => parseDec rest
  | _ => parseDec t

/-- JS `ToNumber` on a primitive; `none` is `NaN`. -/
def toNum : JsPrim → Option ℚ
  | .num q => some q
  | .nan => none
  | .null => some 0
  | .bool b => some (if b then 1 else 0)
  | .str s => jsStringToNum s

/-- JS `isNaN(v)` (which converts its argument to a number first). -/
def jsIsNaN (v : JsPrim) : Bool := (toNum v).isNone

/-- JS `v || d` for the common default-value idiom. -/
def jsOr (v d : JsPrim) : JsPrim := if v.truthy then v else d

/-- JS subtraction `a - b` (always numeric); `none` is `NaN`. -/
def jsSub (a b : JsPrim) : Option ℚ := do
  let x ← toNum a
  let y ← toNum b
  pure (x - y)

/-- JS `v > 0`; comparisons involving `NaN` are false. -/
def jsGtZero (v : JsPrim) : Bool :=
  match toNum v with
  | some q => q > 0
  | none => false

/-- String interpolation of a primitive as in a template literal.  Numbers
are rendered through the rational's string form (an approximation of JS
number formatting that agrees on integers, which is what deduplication keys
contain in practice). -/
def jsToString : JsPrim → String
  | .str s => s
  | .num q => toString q
  | .null => "null"
  | .nan => "NaN"
  | .bool b => if b then "true" else "false"

/-- Word characters of the JS regex class `\w`. -/
def isWordChar (c : Char) : Bool := c.isAlphanum || c = '_'

/-- First match of the regex `\b(20\d{2})\b` in a string, as used by
`extractYear` (defined identically in `DocumentProcessor` and
`CreditAnalyzer`): scan left to right for `20` followed by two digits, with
non-word characters (or the string ends) on both sides. -/
def extractYearAux : Option Char → List Char → Option ℕ
  | prev, c1 :: c2 :: c3 :: c4 :: rest =>
    if (prev.all fun c => ¬ isWordChar c) ∧ c1 = '2' ∧ c2 = '0' ∧
        c3.isDigit ∧ c4.isDigit ∧ (rest.head?.all fun c => ¬ isWordChar c) then
      some (2000 + (c3.toNat - '0'.toNat) * 10 + (c4.toNat - '0'.toNat))
    else
      extractYearAux (some c1) (c2 :: c3 :: c4 :: rest)
  | _, _ => none

/-- `extractYear(period)` from the source: the first `\b20\d{2}\b` year in
the period string, if any. -/
def extractYear (period : String) : Option ℕ :=
  extractYearAux none period.toList

/-- Lexicographic code-point comparison of character lists. -/
def cmpChars : List Char → List Char → ℤ
  | [], [] => 0
  | [], _ :: _ => -1
  | _ :: _, [] => 1
  | a :: as, b :: bs => if a < b then -1 else if b < a then 1 else cmpChars as bs

/-- Lexicographic stand-in for JS `String.prototype.localeCompare` (the
source's fallback comparison; real locale collation is abstracted to
code-point order, which agrees on the plain ASCII period labels the
pipeline handles). -/
def localeCompare (a b : String) : ℤ :=
  cmpChars a.data b.data

/-- `comparePeriods(periodA, periodB)` as defined (identically) in
`DocumentProcessor` and `CreditAnalyzer`: `0` if either string is falsy;
numeric year difference when both sides contain a `20\d{2}` year; otherwise
`localeCompare`. -/
def comparePeriods (periodA periodB : String) : ℤ :=
  if periodA = "" ∨ periodB = "" then 0
  else
    match extractYear periodA, extractYear periodB with
    | some yearA, some yearB => (yearA : ℤ) - (yearB : ℤ)
    | _, _ => localeCompare periodA periodB

/-- Stable insertion used to model `Array.prototype.sort` with a comparator:
an element is placed before the first list element that compares strictly
greater.  For a consistent comparator this is the stable sorted order that
JS's sort produces. -/
def orderedInsertCmp (cmp : α → α → ℤ) (x : α) : List α → List α
  | [] => [x]
  | y :: ys => if cmp x y < 0 then x :: y :: ys else y :: orderedInsertCmp cmp x ys

/-- Stable comparator sort modelling `Array.prototype.sort(cmp)`. -/
def sortByCmp (cmp : α → α → ℤ) (l : List α) : List α :=
  l.foldl (fun acc x => orderedInsertCmp cmp x acc) []

theorem mem_orderedInsertCmp (cmp : α → α → ℤ) (x a : α) :
    ∀ l : List α, a ∈ orderedInsertCmp cmp x l ↔ a = x ∨ a ∈ l
  | [] => by simp [orderedInsertCmp]
  | y :: ys => by
      by_cases h : cmp x y < 0
      · simp [orderedInsertCmp, h]
      · simp [orderedInsertCmp, h, mem_orderedInsertCmp cmp x a ys]
        tauto

theorem mem_sortByCmp_aux (cmp : α → α → ℤ) (a : α) :
    ∀ (l acc : List α), a ∈ l.foldl (fun acc x => orderedInsertCmp cmp x acc) acc ↔
      a ∈ acc ∨ a ∈ l
  | [], acc => by simp
  | x :: xs, acc => by
      rw [List.foldl_cons, mem_sortByCmp_aux cmp a xs, mem_orderedInsertCmp]
      simp
      tauto

theorem mem_sortByCmp (cmp : α → α → ℤ) (a : α) (l : List α) :
    a ∈ sortByCmp cmp l ↔ a ∈ l := by
  rw [sortByCmp, mem_sortByCmp_aux]
  simp

end Pipeline

namespace DocumentProcessor

open Pipeline

/-- One person entry of `personalInfo.individuals` in an extraction
record. -/
structure Individual where
  name : JsPrim
  position : JsPrim
  address : JsPrim
  phone : JsPrim
  email : JsPrim
  ownershipPercentage : JsPrim
deriving DecidableEq, Repr

/-- One bank-statement transaction. -/
structure Transaction where
  date : JsPrim
  description : JsPrim
  amount : JsPrim
  type : JsPrim
deriving DecidableEq, Repr

/-- One bank statement inside an extraction record.  The `period` and
`accountNumber` fields are dynamic values as parsed from model output. -/
structure BankStatement where
  accountNumber : JsPrim
  accountType : JsPrim
  balance : JsPrim
  period : JsPrim
  transactions : Option (List Transaction)
deriving DecidableEq, Repr

/-- One credit-history entry. -/
structure CreditEntry where
  creditor : JsPrim
  accountType : JsPrim
  balance : JsPrim
  paymentStatus : JsPrim
  monthlyPayment : JsPrim
deriving DecidableEq, Repr

/-- The `creditInfo` sub-record.  A missing `creditScore` property is
`JsPrim.null`. -/
structure CreditInfo where
  creditScore : JsPrim
  creditHistory : Option (List CreditEntry)
deriving DecidableEq, Repr

/-- The `financialInfo` sub-record of an extraction record.  The
profit/loss, balance-sheet and cash-flow sub-objects are dynamic key/value
maps (association lists in key-insertion order), matching how
`combineExtractedData` iterates them with `Object.keys`. -/
structure FinancialInfo where
  profitLoss : Option (List (String × JsPrim))
  balanceSheet : Option (List (String × JsPrim))
  bankStatements : Option (List BankStatement)
  creditInfo : Option CreditInfo
  cashFlow : Option (List (String × JsPrim))
deriving DecidableEq, Repr

/-- One page's extraction record as consumed by `combineExtractedData`.
`documentType` is typed as an optional string (the extraction schema
declares it a string; `none` covers null/undefined/absent). -/
structure ExtractionRecord where
  documentType : Option String
  companyInfo : Option (List (String × JsPrim))
  individuals : Option (List Individual)
  financialInfo : Option FinancialInfo
  confidence : JsPrim
deriving DecidableEq, Repr

/-- Canonical merged per-document record produced by
`combineExtractedData` (the nesting under `personalInfo`/`financialInfo`
is flattened; every sub-object exists on the combined output, matching the
initial literal in the source). -/
structure DocumentRecord where
  documentType : String
  companyInfo : List (String × JsPrim)
  individuals : List Individual
  profitLoss : List (String × JsPrim)
  balanceSheet : List (String × JsPrim)
  bankStatements : List BankStatement
  creditScore : JsPrim
  creditHistory : List CreditEntry
  cashFlow : List (String × JsPrim)
  extractionDate : String
  sourceFile : String
  pageCount : ℕ
  confidence : ℚ
deriving DecidableEq, Repr

/-- Property read `m[key]` on a dynamic object: the first binding, or
`undefined` (modelled `null`) when absent. -/
def getProp (m : List (String × JsPrim)) (k : String) : JsPrim :=
  (List.lookup k m).getD .null

/-- Property write `m[key] = v` on a dynamic object (overwrite in place or
append as a new key). -/
def setProp (m : List (String × JsPrim)) (k : String) (v : JsPrim) :
    List (String × JsPrim) :=
  match m with
  | [] => [(k, v)]
  | (k', v') :: rest => if k' = k then (k, v) :: rest else (k', v') :: setProp rest k v

/-- The scalar-field merge loop of `combineExtractedData`:
`Object.keys(src).forEach(key => { if (!combined[key] && src[key])
combined[key] = src[key] })` — a source value is copied only when it is
truthy and the already-merged value is falsy. -/
def mergeProps (combined src : List (String × JsPrim)) : List (String × JsPrim) :=
  src.foldl
    (fun acc kv =>
      if ¬ (getProp acc kv.1).truthy ∧ kv.2.truthy then setProp acc kv.1 kv.2 else acc)
    combined

/-- Generic duplicate removal keeping the first occurrence of each key, as
in `removeDuplicateStatements` / `removeDuplicateCreditHistory` /
`removeDuplicateIndividuals`. -/
def dedupByKey (key : α → String) : List α → List String → List α
  | [], _ => []
  | x :: rest, seen =>
    if seen.contains (key x) then dedupByKey key rest seen
    else x :: dedupByKey key rest (key x :: seen)

/-- `removeDuplicateStatements`: key `${accountNumber}-${period}`. -/
def removeDuplicateStatements (statements : List BankStatement) : List BankStatement :=
  dedupByKey (fun s => jsToString s.accountNumber ++ "-" ++ jsToString s.period) statements []

/-- `removeDuplicateCreditHistory`: key `${creditor}-${accountType}-${balance}`. -/
def removeDuplicateCreditHistory (creditHistory : List CreditEntry) : List CreditEntry :=
  dedupByKey
    (fun c => jsToString c.creditor ++ "-" ++ jsToString c.accountType ++ "-" ++
      jsToString c.balance) creditHistory []

/-- `removeDuplicateIndividuals`: key `${name}-${position}`. -/
def removeDuplicateIndividuals (individuals : List Individual) : List Individual :=
  dedupByKey (fun i => jsToString i.name ++ "-" ++ jsToString i.position) individuals []

/-- The per-field accessors used by the merge loops (absent sub-objects
contribute nothing). -/
def plMap (r : ExtractionRecord) : List (String × JsPrim) :=
  ((r.financialInfo.bind (·.profitLoss)).getD [])

def bsMap (r : ExtractionRecord) : List (String × JsPrim) :=
  ((r.financialInfo.bind (·.balanceSheet)).getD [])

def cfMap (r : ExtractionRecord) : List (String × JsPrim) :=
  ((r.financialInfo.bind (·.cashFlow)).getD [])

def ciMap (r : ExtractionRecord) : List (String × JsPrim) :=
  ((r.companyInfo).getD [])

/-- Model of `combineExtractedData(extractedResults, filename)` in
`backend/services/documentProcessor.js`.  `now` stands for
`new Date().toISOString()`.  The source's single loop over records merging
all financial sub-fields is split into one fold per independent output
field; the folds process records and keys in the same order as the
source. -/
def combineExtractedData (extractedResults : List ExtractionRecord)
    (filename now : String) : DocumentRecord :=
  let companyInfo := extractedResults.foldl (fun acc r => mergeProps acc (ciMap r)) []
  let individuals := extractedResults.foldl
    (fun acc r => acc ++ (r.individuals.getD [])) []
  let profitLoss := extractedResults.foldl (fun acc r => mergeProps acc (plMap r)) []
  let balanceSheet := extractedResults.foldl (fun acc r => mergeProps acc (bsMap r)) []
  let cashFlow := extractedResults.foldl (fun acc r => mergeProps acc (cfMap r)) []
  let bankStatements := extractedResults.foldl
    (fun acc r => acc ++ ((r.financialInfo.bind (·.bankStatements)).getD [])) []
  let creditScore := extractedResults.foldl
    (fun acc r =>
      match r.financialInfo.bind (·.creditInfo) with
      | some ci => if ci.creditScore.truthy ∧ ¬ acc.truthy then ci.creditScore else acc
      | none => acc)
    JsPrim.null
  let creditHistory := extractedResults.foldl
    (fun acc r => acc ++ ((r.financialInfo.bind (fun fi => fi.creditInfo.bind
      (·.creditHistory))).getD [])) []
  let documentTypes := (extractedResults.filterMap (·.documentType)).filter
    (fun t => t ≠ "" ∧ t ≠ "Unknown")
  let confidences := (extractedResults.map (fun r => jsOr r.confidence (.num 0))).filter
    jsGtZero
  { documentType := documentTypes.headD "Unknown"
    companyInfo := companyInfo
    individuals := removeDuplicateIndividuals individuals
    profitLoss := profitLoss
    balanceSheet := balanceSheet
    bankStatements := removeDuplicateStatements bankStatements
    creditScore := creditScore
    creditHistory := removeDuplicateCreditHistory creditHistory
    cashFlow := cashFlow
    extractionDate := now
    sourceFile := filename
    pageCount := extractedResults.length
    confidence :=
      if confidences.isEmpty then 0
      else (confidences.map (fun v => (toNum v).getD 0)).sum / (confidences.length : ℚ) }

end DocumentProcessor

namespace DocumentProcessor

open Pipeline

/-- Coercion `v || 'default'` for period-like fields.  The extraction
schema types these fields as strings, so truthy values are strings;
non-string truthy values (on which the source's later
`period.match(...)` would throw a `TypeError`) are outside the modelled
input range. -/
def strOrDefault (v : JsPrim) (d : String) : String :=
  match v with
  | .str s => if s = "" then d else s
  | _ => d

/-- One row of the grouped profit-loss collection
(`addProfitLossData`). -/
structure PLStatement where
  period : String
  revenue : JsPrim
  expenses : JsPrim
  netIncome : JsPrim
  grossProfit : Option ℚ
  sourceFile : String
  extractionDate : String
  confidence : ℚ
  companyName : String
deriving DecidableEq, Repr

/-- One row of the grouped balance-sheet collection
(`addBalanceSheetData`). -/
structure BalanceSheetEntry where
  asOfDate : String
  totalAssets : JsPrim
  totalLiabilities : JsPrim
  equity : JsPrim
  netWorth : Option ℚ
  debtToAssetRatio : Option ℚ
  sourceFile : String
  extractionDate : String
  confidence : ℚ
  companyName : String
deriving DecidableEq, Repr

/-- One row of the grouped bank-statement collection
(`addBankStatementData`); a source document contributes one row per bank
statement it holds. -/
structure BankStatementEntry where
  period : String
  accountNumber : JsPrim
  accountType : JsPrim
  balance : JsPrim
  transactionCount : ℕ
  totalCredits : Option ℚ
  totalDebits : Option ℚ
  averageBalance : JsPrim
  sourceFile : String
  extractionDate : String
  confidence : ℚ
  companyName : String
  transactions : List Transaction
deriving DecidableEq, Repr

/-- One row of the grouped credit-report collection
(`addCreditReportData`). -/
structure CreditReportEntry where
  reportDate : String
  creditScore : JsPrim
  creditHistory : List CreditEntry
  totalCreditAccounts : ℕ
  totalCreditBalance : Option ℚ
  sourceFile : String
  extractionDate : String
  confidence : ℚ
  companyName : String
deriving DecidableEq, Repr

/-- One row of the grouped cash-flow collection (`addCashFlowData`). -/
structure CashFlowEntry where
  period : String
  operatingCashFlow : JsPrim
  investingCashFlow : JsPrim
  financingCashFlow : JsPrim
  netCashFlow : Option ℚ
  sourceFile : String
  extractionDate : String
  confidence : ℚ
  companyName : String
deriving DecidableEq, Repr

/-- An entry of the `otherDocuments` catch-all. -/
structure OtherDoc where
  documentType : String
  sourceFile : String
  extractionDate : String
  data : DocumentRecord
deriving DecidableEq, Repr

/-- `GroupedFinancialData`: the five typed collections plus the catch-all
(the `summary` sub-object of the source is not modelled; no claim reads
it). -/
structure GroupedFinancialData where
  profitLossStatements : List PLStatement
  balanceSheets : List BalanceSheetEntry
  bankStatements : List BankStatementEntry
  creditReports : List CreditReportEntry
  cashFlowStatements : List CashFlowEntry
  otherDocuments : List OtherDoc
deriving DecidableEq, Repr

/-- `calculateTotalCredits(transactions)`: sum of `amount || 0` over
transactions with `type === 'credit'` (string amounts, which JS would
concatenate, are outside the modelled range; `none` is `NaN`). -/
def calculateTotalCredits (transactions : List Transaction) : Option ℚ :=
  (transactions.filter (fun t => t.type = .str "credit")).foldl
    (fun acc t => do
      let x ← acc
      let y ← toNum (jsOr t.amount (.num 0))
      pure (x + y))
    (some 0)

/-- `calculateTotalDebits(transactions)`. -/
def calculateTotalDebits (transactions : List Transaction) : Option ℚ :=
  (transactions.filter (fun t => t.type = .str "debit")).foldl
    (fun acc t => do
      let x ← acc
      let y ← toNum (jsOr t.amount (.num 0))
      pure (x + y))
    (some 0)

/-- `calculateTotalCreditBalance(creditHistory)`: sum of `balance || 0`. -/
def calculateTotalCreditBalance (creditHistory : List CreditEntry) : Option ℚ :=
  creditHistory.foldl
    (fun acc c => do
      let x ← acc
      let y ← toNum (jsOr c.balance (.num 0))
      pure (x + y))
    (some 0)

/-- `data.companyInfo?.name || 'Unknown Company'`. -/
def companyNameOf (d : DocumentRecord) : String :=
  strOrDefault (getProp d.companyInfo "name") "Unknown Company"

/-- `addProfitLossData(statements, data)`: appends one row when the
profit/loss sub-object has at least one key. -/
def addProfitLossData (statements : List PLStatement) (d : DocumentRecord) :
    List PLStatement :=
  if d.profitLoss.isEmpty then statements
  else
    statements ++
      [{ period := strOrDefault (getProp d.profitLoss "period") "Unknown Period"
         revenue := jsOr (getProp d.profitLoss "revenue") (.num 0)
         expenses := jsOr (getProp d.profitLoss "expenses") (.num 0)
         netIncome := jsOr (getProp d.profitLoss "netIncome") (.num 0)
         grossProfit := jsSub (jsOr (getProp d.profitLoss "revenue") (.num 0))
           (jsOr (getProp d.profitLoss "expenses") (.num 0))
         sourceFile := d.sourceFile
         extractionDate := d.extractionDate
         confidence := d.confidence
         companyName := companyNameOf d }]

/-- `addBalanceSheetData(sheets, data)`. -/
def addBalanceSheetData (sheets : List BalanceSheetEntry) (d : DocumentRecord) :
    List BalanceSheetEntry :=
  if d.balanceSheet.isEmpty then sheets
  else
    sheets ++
      [{ asOfDate := strOrDefault (getProp d.balanceSheet "asOfDate") "Unknown Date"
         totalAssets := jsOr (getProp d.balanceSheet "totalAssets") (.num 0)
         totalLiabilities := jsOr (getProp d.balanceSheet "totalLiabilities") (.num 0)
         equity := jsOr (getProp d.balanceSheet "equity") (.num 0)
         netWorth := jsSub (jsOr (getProp d.balanceSheet "totalAssets") (.num 0))
           (jsOr (getProp d.balanceSheet "totalLiabilities") (.num 0))
         debtToAssetRatio :=
           if jsGtZero (getProp d.balanceSheet "totalAssets") then do
             let liab ← toNum (jsOr (getProp d.balanceSheet "totalLiabilities") (.num 0))
             let assets ← toNum (getProp d.balanceSheet "totalAssets")
             pure (liab / assets)
           else some 0
         sourceFile := d.sourceFile
         extractionDate := d.extractionDate
         confidence := d.confidence
         companyName := companyNameOf d }]

/-- `addBankStatementData(statements, data)`: one row per bank statement
held by the document. -/
def addBankStatementData (statements : List BankStatementEntry) (d : DocumentRecord) :
    List BankStatementEntry :=
  if d.bankStatements.isEmpty then statements
  else
    statements ++ d.bankStatements.map (fun b =>
      { period := strOrDefault b.period "Unknown Period"
        accountNumber := jsOr b.accountNumber (.str "Unknown Account")
        accountType := jsOr b.accountType (.str "Unknown Type")
        balance := jsOr b.balance (.num 0)
        transactionCount := (b.transactions.getD []).length
        totalCredits := calculateTotalCredits (b.transactions.getD [])
        totalDebits := calculateTotalDebits (b.transactions.getD [])
        averageBalance := jsOr b.balance (.num 0)
        sourceFile := d.sourceFile
        extractionDate := d.extractionDate
        confidence := d.confidence
        companyName := companyNameOf d
        transactions := b.transactions.getD [] })

/-- `addCreditReportData(reports, data)`: the guard
`data.financialInfo?.creditInfo` is always true on a combined record (the
merger materialises the sub-object), so one row is always appended. -/
def addCreditReportData (reports : List CreditReportEntry) (d : DocumentRecord) :
    List CreditReportEntry :=
  reports ++
    [{ reportDate := d.extractionDate
       creditScore := jsOr d.creditScore (.num 0)
       creditHistory := d.creditHistory
       totalCreditAccounts := d.creditHistory.length
       totalCreditBalance := calculateTotalCreditBalance d.creditHistory
       sourceFile := d.sourceFile
       extractionDate := d.extractionDate
       confidence := d.confidence
       companyName := companyNameOf d }]

/-- `addCashFlowData(statements, data)`. -/
def addCashFlowData (statements : List CashFlowEntry) (d : DocumentRecord) :
    List CashFlowEntry :=
  if d.cashFlow.isEmpty then statements
  else
    statements ++
      [{ period := strOrDefault (getProp d.cashFlow "period") "Unknown Period"
         operatingCashFlow := jsOr (getProp d.cashFlow "operatingCashFlow") (.num 0)
         investingCashFlow := jsOr (getProp d.cashFlow "investingCashFlow") (.num 0)
         financingCashFlow := jsOr (getProp d.cashFlow "financingCashFlow") (.num 0)
         netCashFlow := do
           let a ← toNum (jsOr (getProp d.cashFlow "operatingCashFlow") (.num 0))
           let b ← toNum (jsOr (getProp d.cashFlow "investingCashFlow") (.num 0))
           let c ← toNum (jsOr (getProp d.cashFlow "financingCashFlow") (.num 0))
           pure (a + b + c)
         sourceFile := d.sourceFile
         extractionDate := d.extractionDate
         confidence := d.confidence
         companyName := companyNameOf d }]

/-- JS `String.prototype.toLowerCase()` on the ASCII document-type strings,
modelled character-wise. -/
def toLowerStr (s : String) : String := String.mk (s.data.map Char.toLower)

/-- The `switch (data.documentType.toLowerCase())` classification of
`groupFinancialDocuments`. -/
inductive DocClass where
  | pl : DocClass
  | bs : DocClass
  | bank : DocClass
  | credit : DocClass
  | cf : DocClass
  | other : DocClass
deriving DecidableEq, Repr

def classifyType (t : String) : DocClass :=
  match toLowerStr t with
  | "profit and loss statement" => .pl
  | "profit & loss" => .pl
  | "income statement" => .pl
  | "p&l statement" => .pl
  | "balance sheet" => .bs
  | "statement of financial position" => .bs
  | "bank statement" => .bank
  | "bank statements" => .bank
  | "credit history report" => .credit
  | "credit report" => .credit
  | "credit history" => .credit
  | "cash flow statement" => .cf
  | "statement of cash flows" => .cf
  | _ => .other

/-- One step of the grouping loop. -/
def addDoc (g : GroupedFinancialData) (d : DocumentRecord) : GroupedFinancialData :=
  match classifyType d.documentType with
  | .pl => { g with profitLossStatements := addProfitLossData g.profitLossStatements d }
  | .bs => { g with balanceSheets := addBalanceSheetData g.balanceSheets d }
  | .bank => { g with bankStatements := addBankStatementData g.bankStatements d }
  | .credit => { g with creditReports := addCreditReportData g.creditReports d }
  | .cf => { g with cashFlowStatements := addCashFlowData g.cashFlowStatements d }
  | .other =>
    { g with otherDocuments := g.otherDocuments ++
        [{ documentType := d.documentType, sourceFile := d.sourceFile,
           extractionDate := d.extractionDate, data := d }] }

def emptyGrouped : GroupedFinancialData :=
  { profitLossStatements := [], balanceSheets := [], bankStatements := [],
    creditReports := [], cashFlowStatements := [], otherDocuments := [] }

/-- Model of `groupFinancialDocuments(allExtractedData)` in
`backend/services/documentProcessor.js`: classify every document into the
typed collections, then sort the profit-loss, balance-sheet and cash-flow
collections by period with `comparePeriods`. -/
def groupFinancialDocuments (allExtractedData : List DocumentRecord) :
    GroupedFinancialData :=
  let g := allExtractedData.foldl addDoc emptyGrouped
  { g with
    profitLossStatements :=
      sortByCmp (fun a b => comparePeriods a.period b.period) g.profitLossStatements
    balanceSheets :=
      sortByCmp (fun a b => comparePeriods a.asOfDate b.asOfDate) g.balanceSheets
    cashFlowStatements :=
      sortByCmp (fun a b => comparePeriods a.period b.period) g.cashFlowStatements }

end DocumentProcessor

namespace CreditAnalyzer

open Pipeline DocumentProcessor

/-- One `{ period, value }` point passed to `calculateTrend`. -/
structure TrendPoint where
  period : String
  value : JsPrim
deriving DecidableEq, Repr

/-- `TrendResult` as returned by `calculateTrend` (or the per-metric
default).  `changePercent` is a JS number (`none` = `NaN`);
`firstValue`/`lastValue` are present only on the fully computed branch. -/
structure TrendResult where
  trend : String
  changePercent : Option ℚ
  periods : List String
  firstValue : Option JsPrim
  lastValue : Option JsPrim
  label : String
deriving DecidableEq, Repr

/-- `Math.round(q * 100) / 100` — JS `Math.round` rounds half toward
positive infinity. -/
def jsRound2 (q : ℚ) : ℚ := ((⌊q * 100 + 1 / 2⌋ : ℤ) : ℚ) / 100

/-- The `insufficient_data` result of `calculateTrend`. -/
def insufficientResult (label : String) : TrendResult :=
  { trend := "insufficient_data", changePercent := some 0, periods := [],
    firstValue := none, lastValue := none, label := label }

/-- Filter of `calculateTrend`:
`d.value !== null && d.value !== undefined && !isNaN(d.value)`. -/
def usable (d : TrendPoint) : Bool :=
  d.value ≠ JsPrim.null ∧ ¬ jsIsNaN d.value

/-- Model of `calculateTrend(data, label)` in
`backend/services/creditAnalyzer.js`: discard null/NaN values, require at
least two points before and after the filter, then compare the first and
last values; `changePercent = (last − first)/|first| · 100` when the first
value is not strictly the number `0`, with thresholds `±10` classifying the
trend (comparisons against a `NaN` changePercent are false, leaving
`stable`); a zero first value with positive last value is `increasing` at
`100`; `changePercent` is rounded to 2 decimals in the returned record. -/
def calculateTrend (data : List TrendPoint) (label : String) : TrendResult :=
  if data.length < 2 then insufficientResult label
  else
    let validData := data.filter usable
    if validData.length < 2 then insufficientResult label
    else
      let firstValue := jsOr (validData.headD ⟨"", .null⟩).value (.num 0)
      let lastValue := jsOr (validData.getLastD ⟨"", .null⟩).value (.num 0)
      let (trend, changePercent) :=
        if firstValue ≠ JsPrim.num 0 then
          let cp : Option ℚ := do
            let l ← toNum lastValue
            let f ← toNum firstValue
            pure ((l - f) / |f| * 100)
          let trend :=
            if (cp.map (fun x => decide (x > 10))).getD false then "increasing"
            else if (cp.map (fun x => decide (x < -10))).getD false then "decreasing"
            else "stable"
          (trend, cp)
        else if jsGtZero lastValue then ("increasing", some 100)
        else ("stable", some 0)
      { trend := trend
        changePercent := changePercent.map jsRound2
        periods := validData.map (·.period)
        firstValue := some firstValue
        lastValue := some lastValue
        label := label }

/-- The four per-metric results of `analyzeFinancialTrends`. -/
structure Trends where
  revenue : TrendResult
  profitability : TrendResult
  assets : TrendResult
  liquidity : TrendResult
deriving DecidableEq, Repr

/-- Initial per-metric default of `analyzeFinancialTrends`
(`{ trend: 'stable', changePercent: 0, periods: [], label }`). -/
def defaultTrend (label : String) : TrendResult :=
  { trend := "stable", changePercent := some 0, periods := [],
    firstValue := none, lastValue := none, label := label }

/-- Model of `analyzeFinancialTrends(groupedData)` in
`backend/services/creditAnalyzer.js`: each metric keeps its default
`stable` result unless its source collection has at least 2 entries, in
which case the collection is re-sorted by period and `calculateTrend` runs
on the `value || 0` series (no exception can arise in the modelled body,
so the source's `try/catch` is the identity). -/
def analyzeFinancialTrends (groupedData : GroupedFinancialData) : Trends :=
  let revenue :=
    if groupedData.profitLossStatements.length ≥ 2 then
      let sortedPL := sortByCmp (fun a b => comparePeriods a.period b.period)
        groupedData.profitLossStatements
      calculateTrend
        (sortedPL.map (fun pl => ⟨pl.period, jsOr pl.revenue (.num 0)⟩)) "Revenue"
    else defaultTrend "Revenue"
  let profitability :=
    if groupedData.profitLossStatements.length ≥ 2 then
      let sortedPL := sortByCmp (fun a b => comparePeriods a.period b.period)
        groupedData.profitLossStatements
      calculateTrend
        (sortedPL.map (fun pl => ⟨pl.period, jsOr pl.netIncome (.num 0)⟩)) "Profitability"
    else defaultTrend "Profitability"
  let assets :=
    if groupedData.balanceSheets.length ≥ 2 then
      let sortedBS := sortByCmp (fun a b => comparePeriods a.asOfDate b.asOfDate)
        groupedData.balanceSheets
      calculateTrend
        (sortedBS.map (fun bs => ⟨bs.asOfDate, jsOr bs.totalAssets (.num 0)⟩)) "Assets"
    else defaultTrend "Assets"
  let liquidity :=
    if groupedData.bankStatements.length ≥ 2 then
      let sortedBank := sortByCmp (fun a b => comparePeriods a.period b.period)
        groupedData.bankStatements
      calculateTrend
        (sortedBank.map (fun bs => ⟨bs.period, jsOr bs.balance (.num 0)⟩)) "Liquidity"
    else defaultTrend "Liquidity"
  { revenue := revenue, profitability := profitability, assets := assets,
    liquidity := liquidity }

/-- Result of `generateMultiPeriodAnalysis`. -/
structure MultiPeriodAnalysis where
  periodsAnalyzed : List String
  consistencyScore : ℚ
  dataQuality : String
  keyInsights : List String
  recommendations : List String
deriving DecidableEq, Repr

/-- JS `Set.add` with insertion-order iteration. -/
def addPeriod (s : List String) (p : String) : List String :=
  if s.contains p then s else s ++ [p]

/-- Model of `generateMultiPeriodAnalysis(groupedData)` in
`backend/services/creditAnalyzer.js`: collect the distinct truthy,
non-sentinel periods of the profit-loss, balance-sheet, bank-statement and
cash-flow collections (in that order); score data quality by the combined
count of profit-loss + balance-sheet + cash-flow statements; emit the
insight and recommendation strings the source pushes. -/
def generateMultiPeriodAnalysis (groupedData : GroupedFinancialData) :
    MultiPeriodAnalysis :=
  let s1 := groupedData.profitLossStatements.foldl
    (fun s pl => if pl.period ≠ "" ∧ pl.period ≠ "Unknown Period" then
      addPeriod s pl.period else s) []
  let s2 := groupedData.balanceSheets.foldl
    (fun s bs => if bs.asOfDate ≠ "" ∧ bs.asOfDate ≠ "Unknown Date" then
      addPeriod s bs.asOfDate else s) s1
  let s3 := groupedData.bankStatements.foldl
    (fun s bank => if bank.period ≠ "" ∧ bank.period ≠ "Unknown Period" then
      addPeriod s bank.period else s) s2
  let s4 := groupedData.cashFlowStatements.foldl
    (fun s cf => if cf.period ≠ "" ∧ cf.period ≠ "Unknown Period" then
      addPeriod s cf.period else s) s3
  let periodsAnalyzed := s4
  let totalStatements := groupedData.profitLossStatements.length +
    groupedData.balanceSheets.length + groupedData.cashFlowStatements.length
  let (consistencyScore, dataQuality) : ℚ × String :=
    if totalStatements ≥ 6 then (9 / 10, "excellent")
    else if totalStatements ≥ 3 then (7 / 10, "good")
    else (4 / 10, "limited")
  let keyInsights :=
    (if groupedData.profitLossStatements.length ≥ 2 then
      ["Multiple profit & loss statements available for trend analysis"] else []) ++
    (if groupedData.balanceSheets.length ≥ 2 then
      ["Multiple balance sheets enable asset and liability trend evaluation"] else []) ++
    (if groupedData.bankStatements.length ≥ 3 then
      ["Comprehensive banking history provides strong cash flow insights"] else [])
  let recommendations :=
    (if periodsAnalyzed.length < 2 then
      ["Request additional historical financial statements for better trend analysis"]
     else []) ++
    (if groupedData.cashFlowStatements.isEmpty then
      ["Cash flow statements would enhance liquidity assessment"] else []) ++
    (if groupedData.creditReports.isEmpty then
      ["Credit history report would improve risk assessment accuracy"] else [])
  { periodsAnalyzed := periodsAnalyzed
    consistencyScore := consistencyScore
    dataQuality := dataQuality
    keyInsights := keyInsights
    recommendations := recommendations }

/-- Modelled from the spec: §4.4's companion computation says the distinct
set of periods is collected "across all five collections"; a credit-report
entry has no `period` field, so its date-like `reportDate` is taken as its
period value, and the sentinel values are excluded as in the code.  This
definition follows the spec's words and is compared against
`generateMultiPeriodAnalysis` (which reads only four collections). -/
def specPeriodsAnalyzed (groupedData : GroupedFinancialData) : List String :=
  let s1 := groupedData.profitLossStatements.foldl
    (fun s pl => if pl.period ≠ "" ∧ pl.period ≠ "Unknown Period" then
      addPeriod s pl.period else s) []
  let s2 := groupedData.balanceSheets.foldl
    (fun s bs => if bs.asOfDate ≠ "" ∧ bs.asOfDate ≠ "Unknown Date" then
      addPeriod s bs.asOfDate else s) s1
  let s3 := groupedData.bankStatements.foldl
    (fun s bank => if bank.period ≠ "" ∧ bank.period ≠ "Unknown Period" then
      addPeriod s bank.period else s) s2
  let s4 := groupedData.creditReports.foldl
    (fun s cr => if cr.reportDate ≠ "" ∧ cr.reportDate ≠ "Unknown Period" ∧
        cr.reportDate ≠ "Unknown Date" then addPeriod s cr.reportDate else s) s3
  groupedData.cashFlowStatements.foldl
    (fun s cf => if cf.period ≠ "" ∧ cf.period ≠ "Unknown Period" then
      addPeriod s cf.period else s) s4

end CreditAnalyzer

namespace CreditAnalyzer

open Pipeline DocumentProcessor

/-- C2 (amended): `analyzeTrends` never fails (it is total), and whenever a
metric's source collection has fewer than 2 entries the returned
`TrendResult` is the initial default — trend `'stable'` with
`changePercent = 0` — not `'insufficient_data'`; with at least 2 entries,
null values are coerced to `0` by the `|| 0` mapping before
`calculateTrend` runs. -/
theorem analyzeTrends_defaults (g : GroupedFinancialData) :
    (g.profitLossStatements.length < 2 →
      (analyzeFinancialTrends g).revenue = defaultTrend "Revenue" ∧
      (analyzeFinancialTrends g).profitability = defaultTrend "Profitability") ∧
    (g.balanceSheets.length < 2 →
      (analyzeFinancialTrends g).assets = defaultTrend "Assets") ∧
    (g.bankStatements.length < 2 →
      (analyzeFinancialTrends g).liquidity = defaultTrend "Liquidity") ∧
    (defaultTrend "Revenue").trend = "stable" ∧
    (defaultTrend "Revenue").changePercent = some 0 := by
  refine ⟨fun h => ?_, fun h => ?_, fun h => ?_, rfl, rfl⟩
  · have h' : ¬ g.profitLossStatements.length ≥ 2 := by omega
    exact ⟨by simp [analyzeFinancialTrends, h'], by simp [analyzeFinancialTrends, h']⟩
  · have h' : ¬ g.balanceSheets.length ≥ 2 := by omega
    simp [analyzeFinancialTrends, h']
  · have h' : ¬ g.bankStatements.length ≥ 2 := by omega
    simp [analyzeFinancialTrends, h']

/-- One concrete grouped profit-loss row used by the C2 witness and
counterexample: a single usable sample. -/
def plEntryA : PLStatement :=
  { period := "December 2022", revenue := .num 100, expenses := .num 40,
    netIncome := .num 60, grossProfit := some 60, sourceFile := "a.pdf",
    extractionDate := "T", confidence := 1, companyName := "Acme" }

def gOnePL : GroupedFinancialData :=
  { profitLossStatements := [plEntryA], balanceSheets := [], bankStatements := [],
    creditReports := [], cashFlowStatements := [], otherDocuments := [] }

theorem analyzeTrends_defaults_witness :
    (analyzeFinancialTrends gOnePL).revenue = defaultTrend "Revenue" ∧
    (analyzeFinancialTrends gOnePL).liquidity = defaultTrend "Liquidity" :=
  ⟨((analyzeTrends_defaults gOnePL).1 (by decide)).1,
   (analyzeTrends_defaults gOnePL).2.2.1 (by decide)⟩

/-- C2 counterexample: with exactly one usable revenue sample (fewer than 2)
the revenue result is the default `'stable'`, not `'insufficient_data'` as
the claim requires. -/
theorem analyzeTrends_one_sample_cex :
    (analyzeFinancialTrends gOnePL).revenue.trend = "stable" ∧
    (analyzeFinancialTrends gOnePL).revenue.changePercent = some 0 ∧
    ("stable" : String) ≠ "insufficient_data" := by
  refine ⟨?_, ?_, by decide⟩ <;>
    simp [analyzeFinancialTrends, gOnePL, defaultTrend]

theorem jsOr_num (f : ℚ) : jsOr (.num f) (.num 0) = .num f := by
  by_cases hf : f = 0 <;> simp [jsOr, JsPrim.truthy, hf]

/-- General behaviour of `calculateTrend` on an all-numeric series, used by
the C5 theorem and its witness. -/
theorem calculateTrend_formula_aux (data : List TrendPoint) (label : String) (f l : ℚ)
    (hall : ∀ d ∈ data, ∃ q : ℚ, d.value = .num q)
    (h2 : 2 ≤ data.length)
    (hf : (data.headD ⟨"", .null⟩).value = .num f)
    (hl : (data.getLastD ⟨"", .null⟩).value = .num l) :
    (f ≠ 0 →
      (calculateTrend data label).changePercent =
        some (jsRound2 ((l - f) / |f| * 100)) ∧
      (calculateTrend data label).trend =
        (if (l - f) / |f| * 100 > 10 then "increasing"
         else if (l - f) / |f| * 100 < -10 then "decreasing" else "stable")) ∧
    (f = 0 → 0 < l →
      (calculateTrend data label).trend = "increasing" ∧
      (calculateTrend data label).changePercent = some 100) ∧
    (calculateTrend data label).periods = data.map TrendPoint.period := by
  have hvalid : data.filter usable = data := by
    refine List.filter_eq_self.mpr fun d hd => ?_
    obtain ⟨q, hq⟩ := hall d hd
    simp [usable, hq, jsIsNaN, toNum]
  have hlen : ¬ data.length < 2 := by omega
  have hlen' : ¬ (data.filter usable).length < 2 := by rw [hvalid]; omega
  have hfv : (data.filter usable).headD ⟨"", .null⟩ = data.headD ⟨"", .null⟩ := by
    rw [hvalid]
  have hlv : (data.filter usable).getLastD ⟨"", .null⟩ = data.getLastD ⟨"", .null⟩ := by
    rw [hvalid]
  refine ⟨fun hf0 => ?_, fun hf0 hl0 => ?_, ?_⟩
  · have hne : JsPrim.num f ≠ JsPrim.num 0 := by simp [hf0]
    simp only [calculateTrend, if_neg hlen, hvalid, if_neg hlen', hfv, hlv, hf, hl,
      jsOr_num, if_pos hne]
    constructor
    · simp [toNum]
    · by_cases h10 : (l - f) / |f| * 100 > 10
      · simp [toNum, h10]
      · by_cases hm10 : (l - f) / |f| * 100 < -10 <;> simp [toNum, h10, hm10]
  · subst hf0
    have hgt : jsGtZero (jsOr (.num l) (.num 0)) = true := by
      rw [jsOr_num]
      simp [jsGtZero, toNum, hl0]
    rw [jsOr_num] at hgt
    have hr100 : jsRound2 100 = 100 := by norm_num [jsRound2]
    simp only [calculateTrend, if_neg hlen, hvalid, if_neg hlen', hfv, hlv, hf, hl,
      jsOr_num, if_neg (by simp : ¬ (JsPrim.num (0 : ℚ) ≠ JsPrim.num 0)), hgt,
      if_true]
    simp [hr100]
  · simp only [calculateTrend, if_neg hlen, hvalid, if_neg hlen']

theorem jsRound2_intCast (n : ℤ) : jsRound2 (n : ℚ) = (n : ℚ) := by
  have hfl : ⌊(n : ℚ) * 100 + 1 / 2⌋ = n * 100 := by
    rw [Int.floor_eq_iff]
    constructor <;> push_cast <;> linarith
  rw [jsRound2, hfl]
  push_cast
  field_simp

/-- Membership discharged for the concrete two-point series used below. -/
theorem two_point_num_mem (a b : ℚ) :
    ∀ d ∈ ([⟨"p1", .num a⟩, ⟨"p2", .num b⟩] : List TrendPoint), ∃ q : ℚ, d.value = .num q := by
  intro d hd
  simp only [List.mem_cons, List.not_mem_nil, or_false] at hd
  rcases hd with rfl | rfl
  · exact ⟨a, rfl⟩
  · exact ⟨b, rfl⟩

/-- C5 (amended): for a series of at least 2 points whose values are all
numbers, with first value `f` and last value `l`: if `f ≠ 0` then
`changePercent` is `(l − f)/|f| · 100` rounded to 2 decimals and the trend
is classified by comparing the unrounded value against `±10`; if `f = 0`
and `l > 0` the trend is `increasing` with `changePercent = 100`; the
2-sample series `[100, 130]` yields `increasing` at `30.00`, `[100, 95]`
yields `stable`, and `[100, 0]` yields `decreasing` at `−100` (taking the
`first ≠ 0` branch), not `stable`. -/
theorem calculateTrend_formula (data : List TrendPoint) (label : String) (f l : ℚ)
    (hall : ∀ d ∈ data, ∃ q : ℚ, d.value = .num q)
    (h2 : 2 ≤ data.length)
    (hf : (data.headD ⟨"", .null⟩).value = .num f)
    (hl : (data.getLastD ⟨"", .null⟩).value = .num l) :
    ((f ≠ 0 →
      (calculateTrend data label).changePercent =
        some (jsRound2 ((l - f) / |f| * 100)) ∧
      (calculateTrend data label).trend =
        (if (l - f) / |f| * 100 > 10 then "increasing"
         else if (l - f) / |f| * 100 < -10 then "decreasing" else "stable")) ∧
    (f = 0 → 0 < l →
      (calculateTrend data label).trend = "increasing" ∧
      (calculateTrend data label).changePercent = some 100) ∧
    (calculateTrend data label).periods = data.map TrendPoint.period) ∧
    ((calculateTrend [⟨"p1", .num 100⟩, ⟨"p2", .num 130⟩] "R").trend = "increasing" ∧
     (calculateTrend [⟨"p1", .num 100⟩, ⟨"p2", .num 130⟩] "R").changePercent = some 30 ∧
     (calculateTrend [⟨"p1", .num 100⟩, ⟨"p2", .num 95⟩] "R").trend = "stable" ∧
     (calculateTrend [⟨"p1", .num 100⟩, ⟨"p2", .num 0⟩] "R").trend = "decreasing" ∧
     (calculateTrend [⟨"p1", .num 100⟩, ⟨"p2", .num 0⟩] "R").changePercent =
       some (-100)) := by
  refine ⟨calculateTrend_formula_aux data label f l hall h2 hf hl, ?_, ?_, ?_, ?_, ?_⟩
  · have h := (calculateTrend_formula_aux [⟨"p1", .num 100⟩, ⟨"p2", .num 130⟩] "R" 100 130
      (two_point_num_mem 100 130) (by norm_num) rfl rfl).1 (by norm_num)
    rw [h.2]
    norm_num
  · have h := (calculateTrend_formula_aux [⟨"p1", .num 100⟩, ⟨"p2", .num 130⟩] "R" 100 130
      (two_point_num_mem 100 130) (by norm_num) rfl rfl).1 (by norm_num)
    rw [h.1]
    have h30 : ((130 : ℚ) - 100) / |(100 : ℚ)| * 100 = ((30 : ℤ) : ℚ) := by norm_num
    rw [h30, jsRound2_intCast]
    norm_num
  · have h := (calculateTrend_formula_aux [⟨"p1", .num 100⟩, ⟨"p2", .num 95⟩] "R" 100 95
      (two_point_num_mem 100 95) (by norm_num) rfl rfl).1 (by norm_num)
    rw [h.2]
    norm_num
  · have h := (calculateTrend_formula_aux [⟨"p1", .num 100⟩, ⟨"p2", .num 0⟩] "R" 100 0
      (two_point_num_mem 100 0) (by norm_num) rfl rfl).1 (by norm_num)
    rw [h.2]
    norm_num
  · have h := (calculateTrend_formula_aux [⟨"p1", .num 100⟩, ⟨"p2", .num 0⟩] "R" 100 0
      (two_point_num_mem 100 0) (by norm_num) rfl rfl).1 (by norm_num)
    rw [h.1]
    have hm : ((0 : ℚ) - 100) / |(100 : ℚ)| * 100 = ((-100 : ℤ) : ℚ) := by norm_num
    rw [hm, jsRound2_intCast]
    norm_num

theorem calculateTrend_formula_witness :
    (calculateTrend [⟨"p1", .num 100⟩, ⟨"p2", .num 130⟩] "R").trend = "increasing" ∧
    (calculateTrend [⟨"p1", .num 100⟩, ⟨"p2", .num 130⟩] "R").changePercent = some 30 := by
  have h := calculateTrend_formula [⟨"p1", .num 100⟩, ⟨"p2", .num 130⟩] "R" 100 130
    (two_point_num_mem 100 130) (by norm_num) rfl rfl
  exact ⟨h.2.1, h.2.2.1⟩

/-- C5 counterexample: the claim asserts the 2-sample series `[100, 0]`
yields `stable`; the code takes the `first ≠ 0` branch, computes
`changePercent = −100 < −10` and classifies the trend `decreasing`. -/
theorem calculateTrend_100_0_cex :
    (calculateTrend [⟨"p1", .num 100⟩, ⟨"p2", .num 0⟩] "R").trend = "decreasing" ∧
    (calculateTrend [⟨"p1", .num 100⟩, ⟨"p2", .num 0⟩] "R").changePercent = some (-100) ∧
    ("decreasing" : String) ≠ "stable" := by
  have h := (calculateTrend_formula_aux [⟨"p1", .num 100⟩, ⟨"p2", .num 0⟩] "R" 100 0
    (two_point_num_mem 100 0) (by norm_num) rfl rfl).1 (by norm_num)
  refine ⟨?_, ?_, by decide⟩
  · rw [h.2]
    norm_num
  · rw [h.1]
    have hm : ((0 : ℚ) - 100) / |(100 : ℚ)| * 100 = ((-100 : ℤ) : ℚ) := by norm_num
    rw [hm, jsRound2_intCast]
    norm_num

end CreditAnalyzer

namespace DocumentProcessor

open Pipeline

/-- First truthy binding of a key inside one source map. -/
def firstTruthyInMap (m : List (String × JsPrim)) (k : String) : Option JsPrim :=
  ((m.filter (fun kv => kv.1 = k ∧ kv.2.truthy)).head?).map Prod.snd

theorem getProp_cons (k₀ : String) (v₀ : JsPrim) (rest : List (String × JsPrim))
    (k : String) :
    getProp ((k₀, v₀) :: rest) k = if k₀ = k then v₀ else getProp rest k := by
  simp only [getProp, List.lookup]
  by_cases h : k₀ = k
  · subst h
    simp
  · have hb : (k == k₀) = false := by
      simp only [beq_eq_false_iff_ne, ne_eq]
      exact Ne.symm h
    simp [hb, h]

theorem getProp_setProp_self : ∀ (m : List (String × JsPrim)) (k : String) (v : JsPrim),
    getProp (setProp m k v) k = v
  | [], k, v => by simp [setProp, getProp_cons]
  | (k', v') :: rest, k, v => by
      by_cases h : k' = k
      · subst h
        simp [setProp, getProp_cons]
      · simp [setProp, h, getProp_cons, getProp_setProp_self rest k v]

theorem getProp_setProp_ne : ∀ (m : List (String × JsPrim)) (k' k : String) (v : JsPrim),
    k' ≠ k → getProp (setProp m k' v) k = getProp m k
  | [], k', k, v, h => by
      rw [setProp, getProp_cons, if_neg h]
  | (k₀, v₀) :: rest, k', k, v, h => by
      by_cases h0 : k₀ = k'
      · subst h0
        simp [setProp, getProp_cons, h]
      · simp only [setProp, if_neg h0, getProp_cons]
        by_cases hk : k₀ = k
        · simp [hk]
        · simp [hk, getProp_setProp_ne rest k' k v h]

/-- Effect of one `mergeProps` pass on one key: a truthy already-merged
value is untouched; otherwise the key receives the source map's first
truthy binding for it (or keeps its old value when there is none). -/
theorem getProp_mergeProps : ∀ (m acc : List (String × JsPrim)) (k : String),
    getProp (mergeProps acc m) k =
      if (getProp acc k).truthy then getProp acc k
      else (firstTruthyInMap m k).getD (getProp acc k)
  | [], acc, k => by
      by_cases h : (getProp acc k).truthy <;> simp [mergeProps, firstTruthyInMap, h]
  | kv :: rest, acc, k => by
      have hrec := getProp_mergeProps rest
      by_cases hk : kv.1 = k
      · subst hk
        by_cases hacc : (getProp acc kv.1).truthy
        · have : mergeProps acc (kv :: rest) = mergeProps acc rest := by
            simp [mergeProps, hacc]
          rw [this, hrec acc kv.1]
          simp [hacc]
        · by_cases hv : kv.2.truthy
          · have : mergeProps acc (kv :: rest) = mergeProps (setProp acc kv.1 kv.2) rest := by
              simp [mergeProps, hacc, hv]
            rw [this, hrec (setProp acc kv.1 kv.2) kv.1]
            rw [getProp_setProp_self]
            simp [hacc, hv, firstTruthyInMap, List.filter]
          · have : mergeProps acc (kv :: rest) = mergeProps acc rest := by
              simp [mergeProps, hacc, hv]
            rw [this, hrec acc kv.1]
            have hfil : firstTruthyInMap (kv :: rest) kv.1 = firstTruthyInMap rest kv.1 := by
              simp [firstTruthyInMap, List.filter, hv]
            rw [hfil]
      · have hacc' : ∀ acc', mergeProps acc' (kv :: rest) =
            mergeProps (if ¬ (getProp acc' kv.1).truthy ∧ kv.2.truthy then
              setProp acc' kv.1 kv.2 else acc') rest := by
          intro acc'
          by_cases hc : ¬ (getProp acc' kv.1).truthy ∧ kv.2.truthy <;>
            simp [mergeProps, hc]
        rw [hacc' acc, hrec _ k]
        have hsame : getProp (if ¬ (getProp acc kv.1).truthy ∧ kv.2.truthy then
            setProp acc kv.1 kv.2 else acc) k = getProp acc k := by
          by_cases hc : ¬ (getProp acc kv.1).truthy ∧ kv.2.truthy
          · rw [if_pos hc, getProp_setProp_ne _ _ _ _ hk]
          · rw [if_neg hc]
        rw [hsame]
        have hfil : firstTruthyInMap (kv :: rest) k = firstTruthyInMap rest k := by
          simp [firstTruthyInMap, List.filter, hk]
        rw [hfil]

theorem firstTruthyInMap_truthy {m : List (String × JsPrim)} {k : String} {v : JsPrim}
    (h : firstTruthyInMap m k = some v) : v.truthy := by
  simp only [firstTruthyInMap, Option.map_eq_some'] at h
  obtain ⟨kv0, hkv0, rfl⟩ := h
  have hmem : kv0 ∈ m.filter (fun kv => kv.1 = k ∧ kv.2.truthy) :=
    List.mem_of_mem_head? hkv0
  have := (List.mem_filter.1 hmem).2
  simp only [decide_eq_true_eq] at this
  exact this.2

/-- Folding `mergeProps` over a list of source maps: per key, a truthy
starting value wins, else the first truthy binding found scanning the maps
in order (else the starting value). -/
theorem getProp_foldl_mergeProps : ∀ (maps : List (List (String × JsPrim)))
    (acc : List (String × JsPrim)) (k : String),
    getProp (maps.foldl mergeProps acc) k =
      if (getProp acc k).truthy then getProp acc k
      else (maps.findSome? (fun m => firstTruthyInMap m k)).getD (getProp acc k)
  | [], acc, k => by by_cases h : (getProp acc k).truthy <;> simp [h]
  | m :: ms, acc, k => by
      rw [List.foldl_cons, getProp_foldl_mergeProps ms (mergeProps acc m) k,
        getProp_mergeProps m acc k]
      by_cases hacc : (getProp acc k).truthy
      · simp [hacc]
      · rcases hm : firstTruthyInMap m k with _ | v
        · simp [hacc, hm, List.findSome?_cons]
        · have hv : v.truthy := firstTruthyInMap_truthy hm
          simp [hacc, hm, hv, List.findSome?_cons]

end DocumentProcessor

namespace DocumentProcessor

open Pipeline

/-- C6 (amended): in `combineExtractedData` each scalar optional field
(company-info, profit/loss, balance-sheet and cash-flow keys) receives the
first TRUTHY value encountered scanning records in input order — not the
first non-null value: `null`, the number `0`, the empty string and `NaN`
are all skipped as candidates (JS truthiness), so a field whose first
non-null occurrence is `0` or `""` is left unfilled by it and a later
truthy value fills the field; later truthy values for an already-filled
field are dropped silently. -/
theorem combine_scalar_first_truthy (rs : List ExtractionRecord)
    (filename now k : String) :
    getProp (combineExtractedData rs filename now).companyInfo k =
      ((rs.map ciMap).findSome? (fun m => firstTruthyInMap m k)).getD .null ∧
    getProp (combineExtractedData rs filename now).profitLoss k =
      ((rs.map plMap).findSome? (fun m => firstTruthyInMap m k)).getD .null ∧
    getProp (combineExtractedData rs filename now).balanceSheet k =
      ((rs.map bsMap).findSome? (fun m => firstTruthyInMap m k)).getD .null ∧
    getProp (combineExtractedData rs filename now).cashFlow k =
      ((rs.map cfMap).findSome? (fun m => firstTruthyInMap m k)).getD .null := by
  have hbase : getProp ([] : List (String × JsPrim)) k = .null := rfl
  have hfalsy : ¬ (getProp ([] : List (String × JsPrim)) k).truthy := by
    rw [hbase]
    simp [JsPrim.truthy]
  refine ⟨?_, ?_, ?_, ?_⟩ <;>
  · show getProp (List.foldl _ [] rs) k = _
    rw [← List.foldl_map, getProp_foldl_mergeProps, if_neg hfalsy, hbase]

/-- Extraction records for the C6 counterexample: the first page reports
`revenue: 0`, the second `revenue: 5`. -/
def cexRecA : ExtractionRecord :=
  { documentType := none, companyInfo := none, individuals := none,
    financialInfo := some
      { profitLoss := some [("revenue", .num 0)], balanceSheet := none,
        bankStatements := none, creditInfo := none, cashFlow := none },
    confidence := .null }

def cexRecB : ExtractionRecord :=
  { documentType := none, companyInfo := none, individuals := none,
    financialInfo := some
      { profitLoss := some [("revenue", .num 5)], balanceSheet := none,
        bankStatements := none, creditInfo := none, cashFlow := none },
    confidence := .null }

/-- C6 counterexample: the first non-null `revenue` value is the number
`0`, but the merge skips it (it is falsy) and the later record's `5` fills
the field, contradicting "merged as that value and not replaced by a later
record's value". -/
theorem combine_zero_replaced_cex :
    getProp (combineExtractedData [cexRecA, cexRecB] "f.pdf" "T").profitLoss "revenue" =
      .num 5 ∧ JsPrim.num 5 ≠ JsPrim.num 0 := by decide

end DocumentProcessor

namespace CreditAnalyzer

open Pipeline DocumentProcessor

theorem mem_addPeriod (s : List String) (p q : String) :
    q ∈ addPeriod s p ↔ q ∈ s ∨ q = p := by
  by_cases h : p ∈ s
  · have hc : s.contains p = true := by simpa using h
    rw [addPeriod, if_pos hc]
    constructor
    · exact Or.inl
    · rintro (hq | rfl)
      · exact hq
      · exact h
  · have hc : ¬ s.contains p = true := by simpa using h
    rw [addPeriod, if_neg hc]
    simp

theorem nodup_addPeriod (s : List String) (p : String) (h : s.Nodup) :
    (addPeriod s p).Nodup := by
  by_cases hm : p ∈ s
  · have hc : s.contains p = true := by simpa using hm
    rw [addPeriod, if_pos hc]
    exact h
  · have hc : ¬ s.contains p = true := by simpa using hm
    rw [addPeriod, if_neg hc]
    simp [List.nodup_append, h, hm]

theorem mem_periodFold {P : α → Prop} [DecidablePred P] (f : α → String) :
    ∀ (l : List α) (s0 : List String) (q : String),
      (q ∈ l.foldl (fun s x => if P x then addPeriod s (f x) else s) s0 ↔
        q ∈ s0 ∨ ∃ x ∈ l, P x ∧ f x = q)
  | [], s0, q => by simp
  | x :: xs, s0, q => by
      rw [List.foldl_cons, mem_periodFold f xs _ q]
      by_cases hP : P x
      · rw [if_pos hP, mem_addPeriod]
        constructor
        · rintro ((hq | rfl) | ⟨y, hy, hPy, rfl⟩)
          · exact Or.inl hq
          · exact Or.inr ⟨x, List.mem_cons_self x xs, hP, rfl⟩
          · exact Or.inr ⟨y, List.mem_cons_of_mem x hy, hPy, rfl⟩
        · rintro (hq | ⟨y, hy, hPy, rfl⟩)
          · exact Or.inl (Or.inl hq)
          · rcases List.mem_cons.1 hy with rfl | hy'
            · exact Or.inl (Or.inr rfl)
            · exact Or.inr ⟨y, hy', hPy, rfl⟩
      · rw [if_neg hP]
        constructor
        · rintro (hq | ⟨y, hy, hPy, rfl⟩)
          · exact Or.inl hq
          · exact Or.inr ⟨y, List.mem_cons_of_mem x hy, hPy, rfl⟩
        · rintro (hq | ⟨y, hy, hPy, rfl⟩)
          · exact Or.inl hq
          · rcases List.mem_cons.1 hy with rfl | hy'
            · exact absurd hPy hP
            · exact Or.inr ⟨y, hy', hPy, rfl⟩

theorem nodup_periodFold {P : α → Prop} [DecidablePred P] (f : α → String) :
    ∀ (l : List α) (s0 : List String), s0.Nodup →
      (l.foldl (fun s x => if P x then addPeriod s (f x) else s) s0).Nodup
  | [], s0, h => h
  | x :: xs, s0, h => by
      rw [List.foldl_cons]
      refine nodup_periodFold f xs _ ?_
      by_cases hP : P x
      · rw [if_pos hP]
        exact nodup_addPeriod _ _ h
      · rwa [if_neg hP]

/-- C7 (amended): `multiPeriodAnalysis.periodsAnalyzed` is the distinct set
of period values collected across FOUR grouped collections — profit-loss
(`period`), balance-sheet (`asOfDate`), bank-statement (`period`) and
cash-flow (`period`) — excluding the sentinels `'Unknown Period'` /
`'Unknown Date'` (and empty strings, which are falsy); credit-report
entries contribute nothing. -/
theorem multiPeriod_periods_spec (g : GroupedFinancialData) (q : String) :
    (q ∈ (generateMultiPeriodAnalysis g).periodsAnalyzed ↔
      ((∃ pl ∈ g.profitLossStatements,
          pl.period = q ∧ q ≠ "" ∧ q ≠ "Unknown Period") ∨
       (∃ bs ∈ g.balanceSheets, bs.asOfDate = q ∧ q ≠ "" ∧ q ≠ "Unknown Date") ∨
       (∃ b ∈ g.bankStatements, b.period = q ∧ q ≠ "" ∧ q ≠ "Unknown Period") ∨
       (∃ cf ∈ g.cashFlowStatements, cf.period = q ∧ q ≠ "" ∧ q ≠ "Unknown Period"))) ∧
    (generateMultiPeriodAnalysis g).periodsAnalyzed.Nodup := by
  constructor
  · show q ∈ List.foldl _ (List.foldl _ (List.foldl _ (List.foldl _ [] _) _) _) _ ↔ _
    rw [mem_periodFold, mem_periodFold, mem_periodFold, mem_periodFold]
    simp only [List.not_mem_nil, false_or]
    constructor
    · rintro (((h | h) | h) | h)
      · exact Or.inl (by obtain ⟨x, hx, ⟨h1, h2⟩, rfl⟩ := h; exact ⟨x, hx, rfl, h1, h2⟩)
      · exact Or.inr (Or.inl (by obtain ⟨x, hx, ⟨h1, h2⟩, rfl⟩ := h; exact ⟨x, hx, rfl, h1, h2⟩))
      · exact Or.inr (Or.inr (Or.inl
          (by obtain ⟨x, hx, ⟨h1, h2⟩, rfl⟩ := h; exact ⟨x, hx, rfl, h1, h2⟩)))
      · exact Or.inr (Or.inr (Or.inr
          (by obtain ⟨x, hx, ⟨h1, h2⟩, rfl⟩ := h; exact ⟨x, hx, rfl, h1, h2⟩)))
    · rintro (h | h | h | h)
      · exact Or.inl (Or.inl (Or.inl
          (by obtain ⟨x, hx, rfl, h1, h2⟩ := h; exact ⟨x, hx, ⟨h1, h2⟩, rfl⟩)))
      · exact Or.inl (Or.inl (Or.inr
          (by obtain ⟨x, hx, rfl, h1, h2⟩ := h; exact ⟨x, hx, ⟨h1, h2⟩, rfl⟩)))
      · exact Or.inl (Or.inr
          (by obtain ⟨x, hx, rfl, h1, h2⟩ := h; exact ⟨x, hx, ⟨h1, h2⟩, rfl⟩))
      · exact Or.inr (by obtain ⟨x, hx, rfl, h1, h2⟩ := h; exact ⟨x, hx, ⟨h1, h2⟩, rfl⟩)
  · show (List.foldl _ (List.foldl _ (List.foldl _ (List.foldl _ [] _) _) _) _).Nodup
    exact nodup_periodFold _ _ _ (nodup_periodFold _ _ _ (nodup_periodFold _ _ _
      (nodup_periodFold _ _ _ List.nodup_nil)))

/-- Grouped data for the C7 counterexample: one credit report whose
report date is a normal period string, and nothing else. -/
def crEntryX : CreditReportEntry :=
  { reportDate := "March 2023", creditScore := .num 700, creditHistory := [],
    totalCreditAccounts := 0, totalCreditBalance := some 0, sourceFile := "c.pdf",
    extractionDate := "March 2023", confidence := 1, companyName := "Acme" }

def gCredit : GroupedFinancialData :=
  { profitLossStatements := [], balanceSheets := [], bankStatements := [],
    creditReports := [crEntryX], cashFlowStatements := [], otherDocuments := [] }

/-- C7 counterexample: with a single credit report (report date
`"March 2023"`) and empty other collections, the spec's five-collection
reading contains that period while the code's `periodsAnalyzed` — which
never reads the credit-report collection — is empty. -/
theorem multiPeriod_missing_credit_cex :
    "March 2023" ∈ specPeriodsAnalyzed gCredit ∧
    "March 2023" ∉ (generateMultiPeriodAnalysis gCredit).periodsAnalyzed := by decide

end CreditAnalyzer

namespace Pipeline

theorem extractYear_ne_empty {s : String} {y : ℕ} (h : extractYear s = some y) :
    s ≠ "" := by
  intro hs
  subst hs
  simp [extractYear, extractYearAux] at h

/-- When both period strings contain a year, `comparePeriods` is the year
difference. -/
theorem comparePeriods_years {a b : String} {ya yb : ℕ}
    (ha : extractYear a = some ya) (hb : extractYear b = some yb) :
    comparePeriods a b = (ya : ℤ) - (yb : ℤ) := by
  have ha' := extractYear_ne_empty ha
  have hb' := extractYear_ne_empty hb
  rw [comparePeriods, if_neg (by simp [ha', hb']), ha, hb]

/-- The key function for year-based sortedness. -/
def yearKey (s : String) : ℤ := ((extractYear s).getD 0 : ℕ)

theorem pairwise_orderedInsertCmp (cmp : α → α → ℤ) (key : α → ℤ) (P : α → Prop)
    (hcmp : ∀ a b, P a → P b → cmp a b = key a - key b) :
    ∀ (acc : List α) (x : α), P x → (∀ a ∈ acc, P a) →
      acc.Pairwise (fun a b => key a ≤ key b) →
      (orderedInsertCmp cmp x acc).Pairwise (fun a b => key a ≤ key b)
  | [], x, _, _, _ => by simp [orderedInsertCmp]
  | y :: ys, x, hx, hmem, hpw => by
      have hy := hmem y (List.mem_cons_self y ys)
      have hcxy := hcmp x y hx hy
      by_cases h : cmp x y < 0
      · rw [orderedInsertCmp, if_pos h]
        refine List.Pairwise.cons ?_ hpw
        intro z hz
        have hxy : key x ≤ key y := by omega
        rcases List.mem_cons.1 hz with rfl | hz'
        · exact hxy
        · have := (List.pairwise_cons.1 hpw).1 z hz'
          omega
      · rw [orderedInsertCmp, if_neg h]
        have hyx : key y ≤ key x := by omega
        refine List.Pairwise.cons ?_ ?_
        · intro z hz
          rcases (mem_orderedInsertCmp cmp x z ys).1 hz with rfl | hz'
          · exact hyx
          · exact (List.pairwise_cons.1 hpw).1 z hz'
        · exact pairwise_orderedInsertCmp cmp key P hcmp ys x hx
            (fun a ha => hmem a (List.mem_cons_of_mem y ha))
            (List.pairwise_cons.1 hpw).2

theorem pairwise_sortByCmp_aux (cmp : α → α → ℤ) (key : α → ℤ) (P : α → Prop)
    (hcmp : ∀ a b, P a → P b → cmp a b = key a - key b) :
    ∀ (l acc : List α), (∀ a ∈ l, P a) → (∀ a ∈ acc, P a) →
      acc.Pairwise (fun a b => key a ≤ key b) →
      (l.foldl (fun acc x => orderedInsertCmp cmp x acc) acc).Pairwise
        (fun a b => key a ≤ key b)
  | [], acc, _, _, hpw => hpw
  | x :: xs, acc, hl, hacc, hpw => by
      rw [List.foldl_cons]
      refine pairwise_sortByCmp_aux cmp key P hcmp xs _
        (fun a ha => hl a (List.mem_cons_of_mem x ha)) ?_ ?_
      · intro a ha
        rcases (mem_orderedInsertCmp cmp x a acc).1 ha with rfl | ha'
        · exact hl _ (List.mem_cons_self _ _)
        · exact hacc a ha'
      · exact pairwise_orderedInsertCmp cmp key P hcmp acc x
          (hl x (List.mem_cons_self x xs)) hacc hpw

/-- Stable comparator sort yields a key-sorted list whenever the comparator
agrees with key differences on all elements present. -/
theorem pairwise_sortByCmp (cmp : α → α → ℤ) (key : α → ℤ) (P : α → Prop)
    (hcmp : ∀ a b, P a → P b → cmp a b = key a - key b)
    (l : List α) (hl : ∀ a ∈ l, P a) :
    (sortByCmp cmp l).Pairwise (fun a b => cmp a b ≤ 0) := by
  have hkey : (sortByCmp cmp l).Pairwise (fun a b => key a ≤ key b) :=
    pairwise_sortByCmp_aux cmp key P hcmp l [] hl (by simp) List.Pairwise.nil
  refine hkey.imp_of_mem ?_
  intro a b ha hb hab
  have hPa := hl a ((mem_sortByCmp cmp a l).1 ha)
  have hPb := hl b ((mem_sortByCmp cmp b l).1 hb)
  rw [hcmp a b hPa hPb]
  omega

end Pipeline

namespace DocumentProcessor

open Pipeline

theorem foldl_addDoc_bank : ∀ (docs : List DocumentRecord) (g : GroupedFinancialData),
    (docs.foldl addDoc g).bankStatements =
      docs.foldl (fun acc d => if classifyType d.documentType = .bank then
        addBankStatementData acc d else acc) g.bankStatements
  | [], g => rfl
  | d :: docs, g => by
      rw [List.foldl_cons, List.foldl_cons, foldl_addDoc_bank docs]
      rcases hc : classifyType d.documentType <;> simp [addDoc, hc]

theorem foldl_addDoc_credit : ∀ (docs : List DocumentRecord) (g : GroupedFinancialData),
    (docs.foldl addDoc g).creditReports =
      docs.foldl (fun acc d => if classifyType d.documentType = .credit then
        addCreditReportData acc d else acc) g.creditReports
  | [], g => rfl
  | d :: docs, g => by
      rw [List.foldl_cons, List.foldl_cons, foldl_addDoc_credit docs]
      rcases hc : classifyType d.documentType <;> simp [addDoc, hc]

/-- C8 (amended): the grouped profit-loss, balance-sheet and cash-flow
collections are sorted ascending under the Period Comparison PROVIDED the
comparison is consistent on the periods involved — e.g. whenever every
period in the collection contains a `20\d{2}` year (mixed year/no-year
periods make `comparePeriods` intransitive and then no output order is
sorted); the bank-statement and credit-report collections retain insertion
order: they equal the unsorted fold that appends each matching document's
rows in input order. -/
theorem group_sort_and_insertion_order (docs : List DocumentRecord) :
    ((∀ e ∈ (groupFinancialDocuments docs).profitLossStatements,
        (extractYear e.period).isSome) →
      (groupFinancialDocuments docs).profitLossStatements.Pairwise
        (fun a b => comparePeriods a.period b.period ≤ 0)) ∧
    ((∀ e ∈ (groupFinancialDocuments docs).balanceSheets,
        (extractYear e.asOfDate).isSome) →
      (groupFinancialDocuments docs).balanceSheets.Pairwise
        (fun a b => comparePeriods a.asOfDate b.asOfDate ≤ 0)) ∧
    ((∀ e ∈ (groupFinancialDocuments docs).cashFlowStatements,
        (extractYear e.period).isSome) →
      (groupFinancialDocuments docs).cashFlowStatements.Pairwise
        (fun a b => comparePeriods a.period b.period ≤ 0)) ∧
    (groupFinancialDocuments docs).bankStatements =
      docs.foldl (fun acc d => if classifyType d.documentType = .bank then
        addBankStatementData acc d else acc) [] ∧
    (groupFinancialDocuments docs).creditReports =
      docs.foldl (fun acc d => if classifyType d.documentType = .credit then
        addCreditReportData acc d else acc) [] := by
  refine ⟨?_, ?_, ?_, ?_, ?_⟩
  · intro hy
    show (sortByCmp _ _).Pairwise _
    refine pairwise_sortByCmp _ (fun e => yearKey e.period)
      (fun e => (extractYear e.period).isSome) ?_ _ ?_
    · intro a b ha hb
      obtain ⟨ya, hya⟩ := Option.isSome_iff_exists.1 ha
      obtain ⟨yb, hyb⟩ := Option.isSome_iff_exists.1 hb
      rw [comparePeriods_years hya hyb]
      simp [yearKey, hya, hyb]
    · intro a ha
      exact hy a ((mem_sortByCmp _ a _).2 ha)
  · intro hy
    show (sortByCmp _ _).Pairwise _
    refine pairwise_sortByCmp _ (fun e => yearKey e.asOfDate)
      (fun e => (extractYear e.asOfDate).isSome) ?_ _ ?_
    · intro a b ha hb
      obtain ⟨ya, hya⟩ := Option.isSome_iff_exists.1 ha
      obtain ⟨yb, hyb⟩ := Option.isSome_iff_exists.1 hb
      rw [comparePeriods_years hya hyb]
      simp [yearKey, hya, hyb]
    · intro a ha
      exact hy a ((mem_sortByCmp _ a _).2 ha)
  · intro hy
    show (sortByCmp _ _).Pairwise _
    refine pairwise_sortByCmp _ (fun e => yearKey e.period)
      (fun e => (extractYear e.period).isSome) ?_ _ ?_
    · intro a b ha hb
      obtain ⟨ya, hya⟩ := Option.isSome_iff_exists.1 ha
      obtain ⟨yb, hyb⟩ := Option.isSome_iff_exists.1 hb
      rw [comparePeriods_years hya hyb]
      simp [yearKey, hya, hyb]
    · intro a ha
      exact hy a ((mem_sortByCmp _ a _).2 ha)
  · exact foldl_addDoc_bank docs emptyGrouped
  · exact foldl_addDoc_credit docs emptyGrouped

/-- A profit-loss document with the given period, used by the C8 witness
and counterexample. -/
def plDocW (p : String) : DocumentRecord :=
  { documentType := "Income Statement", companyInfo := [], individuals := [],
    profitLoss := [("period", .str p), ("revenue", .num 10)], balanceSheet := [],
    bankStatements := [], creditScore := .null, creditHistory := [], cashFlow := [],
    extractionDate := "T", sourceFile := "f.pdf", pageCount := 1, confidence := 1 }

theorem group_sort_and_insertion_order_witness :
    List.Pairwise (fun a b => comparePeriods a.period b.period ≤ 0)
      (groupFinancialDocuments
        [plDocW "December 2023", plDocW "December 2022"]).profitLossStatements :=
  (group_sort_and_insertion_order
    [plDocW "December 2023", plDocW "December 2022"]).1 (by decide)

theorem perm_two (y z u v : α) (h : [y, z].Perm [u, v]) :
    (y = u ∧ z = v) ∨ (y = v ∧ z = u) := by
  have hy : y ∈ [u, v] := h.mem_iff.1 (List.mem_cons_self _ _)
  have hy' : y = u ∨ y = v := by simpa using hy
  rcases hy' with hy' | hy'
  · subst hy'
    left
    have h3 := List.perm_singleton.1 h.cons_inv
    injection h3 with h4
    exact ⟨rfl, h4⟩
  · subst hy'
    right
    have hsw : ([u, y] : List α).Perm [y, u] := List.Perm.swap y u []
    have h3 := List.perm_singleton.1 ((h.trans hsw).cons_inv)
    injection h3 with h4
    exact ⟨rfl, h4⟩

theorem perm_three (a b c : α) : ∀ l : List α, l.Perm [a, b, c] →
    l = [a, b, c] ∨ l = [a, c, b] ∨ l = [b, a, c] ∨ l = [b, c, a] ∨
      l = [c, a, b] ∨ l = [c, b, a] := by
  intro l h
  have h3 : l.length = 3 := by simpa using h.length_eq
  match l, h3, h with
  | [x, y, z], _, h =>
    have hx : x ∈ [a, b, c] := h.mem_iff.1 (List.mem_cons_self _ _)
    have hx' : x = a ∨ x = b ∨ x = c := by simpa using hx
    rcases hx' with hx' | hx' | hx'
    · subst hx'
      have h2 := h.cons_inv
      rcases perm_two y z b c h2 with ⟨rfl, rfl⟩ | ⟨rfl, rfl⟩
      · exact Or.inl rfl
      · exact Or.inr (Or.inl rfl)
    · subst hx'
      have hsw : ([a, x, c] : List α).Perm [x, a, c] := List.Perm.swap x a [c]
      have h2 := (h.trans hsw).cons_inv
      rcases perm_two y z a c h2 with ⟨rfl, rfl⟩ | ⟨rfl, rfl⟩
      · exact Or.inr (Or.inr (Or.inl rfl))
      · exact Or.inr (Or.inr (Or.inr (Or.inl rfl)))
    · subst hx'
      have hsw : ([a, b, x] : List α).Perm [x, a, b] := by
        have h0 : ([a, b] ++ [x] : List α).Perm (x :: [a, b]) :=
          List.perm_append_singleton x [a, b]
        simpa using h0
      have h2 := (h.trans hsw).cons_inv
      rcases perm_two y z a b h2 with ⟨rfl, rfl⟩ | ⟨rfl, rfl⟩
      · exact Or.inr (Or.inr (Or.inr (Or.inr (Or.inl rfl))))
      · exact Or.inr (Or.inr (Or.inr (Or.inr (Or.inr rfl))))

/-- C8 counterexample: with periods `"a 2020"`, `"b"`, `"c 2019"` the
Period Comparison is cyclic (`"a 2020" < "b" < "c 2019" < "a 2020"` under
it), the grouped profit-loss collection is not pairwise sorted under it —
and no ordering of these three periods is pairwise sorted, so the failure
is independent of the sorting algorithm used. -/
theorem group_sort_cex :
    ¬ List.Pairwise (fun a b => comparePeriods a.period b.period ≤ 0)
      (groupFinancialDocuments
        [plDocW "a 2020", plDocW "b", plDocW "c 2019"]).profitLossStatements ∧
    (∀ l : List String, l.Perm ["a 2020", "b", "c 2019"] →
      ¬ l.Pairwise (fun a b => comparePeriods a b ≤ 0)) := by
  constructor
  · decide
  · intro l hl
    rcases perm_three "a 2020" "b" "c 2019" l hl with rfl | rfl | rfl | rfl | rfl | rfl <;>
      decide

end DocumentProcessor

namespace Ollama

/-- JS values produced by `JSON.parse` and manipulated by
`extractDataFromImage`.  Arrays carry an extra `props` association list
because JS arrays are objects and accept expando properties
(`extractedData.extractionDate = ...` works on an array); `JSON.parse`
always yields `props = []`. -/
inductive Json where
  | null : Json
  | bool : Bool → Json
  | num : ℚ → Json
  | str : String → Json
  | arr : List Json → List (String × Json) → Json
  | obj : List (String × Json) → Json

/-- Character constants written via code points (34 `"`, 39 `'`, 92 `\`,
96 backtick, 123 `{`, 125 `}`). -/
def dquoteC : Char := Char.ofNat 34

def aposC : Char := Char.ofNat 39

def bslashC : Char := Char.ofNat 92

def btickC : Char := Char.ofNat 96

def lbraceC : Char := Char.ofNat 123

def rbraceC : Char := Char.ofNat 125

/-- Whitespace accepted by the JSON grammar. -/
def jsonWs (c : Char) : Bool := c = ' ' ∨ c = '\n' ∨ c = '\r' ∨ c = '\t'

def skipJsonWs (cs : List Char) : List Char := cs.dropWhile jsonWs

/-- Whitespace of the JS regex class `\s` and of `String.prototype.trim`
(ASCII subset; exotic unicode spaces are outside the modelled range). -/
def jsWsChar (c : Char) : Bool :=
  c = ' ' ∨ c = '\n' ∨ c = '\r' ∨ c = '\t' ∨ c = Char.ofNat 12 ∨ c = Char.ofNat 11

/-- JS `String.prototype.trim`. -/
def jsTrimList (cs : List Char) : List Char :=
  ((cs.dropWhile jsWsChar).reverse.dropWhile jsWsChar).reverse

def jsTrim (s : String) : String := String.mk (jsTrimList s.data)

def hexVal (c : Char) : Option ℕ :=
  if c.isDigit then some (c.toNat - '0'.toNat)
  else if 'a' ≤ c ∧ c ≤ 'f' then some (c.toNat - 'a'.toNat + 10)
  else if 'A' ≤ c ∧ c ≤ 'F' then some (c.toNat - 'A'.toNat + 10)
  else none

def escChar (c : Char) : Option Char :=
  if c = dquoteC then some dquoteC
  else if c = bslashC then some bslashC
  else if c = '/' then some '/'
  else if c = 'b' then some (Char.ofNat 8)
  else if c = 'f' then some (Char.ofNat 12)
  else if c = 'n' then some '\n'
  else if c = 'r' then some '\r'
  else if c = 't' then some '\t'
  else none

/-- Body of a JSON string literal, after the opening quote: returns the
decoded content and the remainder after the closing quote (surrogate-pair
recombination for `\u` escapes is not modelled). -/
def parseStringBody : ℕ → List Char → Option (List Char × List Char)
  | 0, _ => none
  | _, [] => none
  | fuel + 1, c :: rest =>
    if c = dquoteC then some ([], rest)
    else if c = bslashC then
      match rest with
      | [] => none
      | e :: rest2 =>
        if e = 'u' then
          match rest2 with
          | h1 :: h2 :: h3 :: h4 :: rest3 => do
            let n1 ← hexVal h1
            let n2 ← hexVal h2
            let n3 ← hexVal h3
            let n4 ← hexVal h4
            let (content, r) ← parseStringBody fuel rest3
            pure (Char.ofNat (((n1 * 16 + n2) * 16 + n3) * 16 + n4) :: content, r)
          | _ => none
        else do
          let ch ← escChar e
          let (content, r) ← parseStringBody fuel rest2
          pure (ch :: content, r)
    else if c.toNat < 32 then none
    else do
      let (content, r) ← parseStringBody fuel rest
      pure (c :: content, r)

/-- A JSON number: optional sign, integer part without leading zeros,
optional fraction and exponent. -/
def parseJsonNumber (cs : List Char) : Option (ℚ × List Char) :=
  let (neg, cs1) := match cs with
    | '-' :: rest => (true, rest)
    | _ => (false, cs)
  let (ip, r1) := cs1.span Char.isDigit
  if ip = [] then none
  else if ip.length > 1 ∧ ip.headD '0' = '0' then none
  else
    let ipVal : ℚ := ip.foldl (fun acc c => acc * 10 + ((c.toNat - '0'.toNat : ℕ) : ℚ)) 0
    let (fVal, r2) : ℚ × List Char :=
      match r1 with
      | '.' :: r => let (fp, r') := r.span Char.isDigit
                    if fp = [] then (0, '.' :: r)
                    else (fp.foldl (fun acc c =>
                      acc * 10 + ((c.toNat - '0'.toNat : ℕ) : ℚ)) 0 / (10 : ℚ) ^ fp.length, r')
      | _ => (0, r1)
    match r2 with
    | '.' :: _ => none
    | _ =>
      let (scale, r3) : ℚ × List Char :=
        match r2 with
        | e :: r =>
          if e = 'e' ∨ e = 'E' then
            let (esign, r') := match r with
              | '-' :: rr => ((-1 : ℤ), rr)
              | '+' :: rr => ((1 : ℤ), rr)
              | _ => ((1 : ℤ), r)
            let (ed, r'') := r'.span Char.isDigit
            if ed = [] then (1, e :: r)
            else ((10 : ℚ) ^ (esign * ((ed.foldl (fun acc c =>
              acc * 10 + (c.toNat - '0'.toNat : ℕ)) 0 : ℕ) : ℤ)), r'')
          else (1, r2)
        | [] => (1, r2)
      let v := (ipVal + fVal) * scale
      some (if neg then -v else v, r3)

end Ollama

namespace Ollama

/-- Insert-or-overwrite on a JS object's property list: an existing key
keeps its position and takes the new value, a new key is appended
(JS insertion-order semantics for string keys). -/
def setF (fields : List (String × Json)) (k : String) (v : Json) :
    List (String × Json) :=
  match fields with
  | [] => [(k, v)]
  | (k', v') :: rest =>
    if k' = k then (k', v) :: rest else (k', v') :: setF rest k v

mutual

/-- Fuel-based recursive-descent parser for one JSON value, returning the
value and the unconsumed remainder.  Duplicate object keys follow
`JSON.parse`: the last value wins, at the first key's position. -/
def parseJsonValue : ℕ → List Char → Option (Json × List Char)
  | 0, _ => none
  | fuel + 1, cs0 =>
    let cs := skipJsonWs cs0
    match cs with
    | [] => none
    | c :: rest =>
      if c = dquoteC then
        match parseStringBody (rest.length + 1) rest with
        | some (content, r) => some (.str (String.mk content), r)
        | none => none
      else if c = lbraceC then
        match skipJsonWs rest with
        | d :: r2 =>
          if d = rbraceC then some (.obj [], r2)
          else
            match parseJsonMembers fuel (skipJsonWs rest) with
            | some (fields, r) =>
              some (.obj (fields.foldl (fun acc kv => setF acc kv.1 kv.2) []), r)
            | none => none
        | [] => none
      else if c = '[' then
        match skipJsonWs rest with
        | d :: r2 =>
          if d = ']' then some (.arr [] [], r2)
          else
            match parseJsonElems fuel (skipJsonWs rest) with
            | some (xs, r) => some (.arr xs [], r)
            | none => none
        | [] => none
      else if c = 't' then
        match rest with
        | 'r' :: 'u' :: 'e' :: r => some (.bool true, r)
        | _ => none
      else if c = 'f' then
        match rest with
        | 'a' :: 'l' :: 's' :: 'e' :: r => some (.bool false, r)
        | _ => none
      else if c = 'n' then
        match rest with
        | 'u' :: 'l' :: 'l' :: r => some (.null, r)
        | _ => none
      else
        match parseJsonNumber cs with
        | some (q, r) => some (.num q, r)
        | none => none

/-- Members of a JSON object, starting at the first key (whitespace
already skipped), consuming through the closing brace. -/
def parseJsonMembers : ℕ → List Char → Option (List (String × Json) × List Char)
  | 0, _ => none
  | fuel + 1, cs =>
    match cs with
    | [] => none
    | c :: rest =>
      if c = dquoteC then
        match parseStringBody (rest.length + 1) rest with
        | some (key, r1) =>
          match skipJsonWs r1 with
          | ':' :: r2 =>
            match parseJsonValue fuel r2 with
            | some (v, r3) =>
              match skipJsonWs r3 with
              | ',' :: r4 =>
                match parseJsonMembers fuel (skipJsonWs r4) with
                | some (fields, r5) => some ((String.mk key, v) :: fields, r5)
                | none => none
              | d :: r4 =>
                if d = rbraceC then some ([(String.mk key, v)], r4) else none
              | [] => none
            | none => none
          | _ => none
        | none => none
      else none

/-- Elements of a JSON array, starting at the first element, consuming
through the closing bracket. -/
def parseJsonElems : ℕ → List Char → Option (List Json × List Char)
  | 0, _ => none
  | fuel + 1, cs =>
    match parseJsonValue fuel cs with
    | some (v, r) =>
      match skipJsonWs r with
      | ',' :: r2 =>
        match parseJsonElems fuel (skipJsonWs r2) with
        | some (xs, r3) => some (v :: xs, r3)
        | none => none
      | ']' :: r2 => some ([v], r2)
      | _ => none
    | none => none

end

/-- `JSON.parse`: one JSON value with nothing but whitespace around it;
`none` models the thrown `SyntaxError`. -/
def jsonParse (s : String) : Option Json :=
  match parseJsonValue (s.data.length + 1) s.data with
  | some (v, rest) => if skipJsonWs rest = [] then some v else none
  | none => none

end Ollama

namespace Ollama

def toLowerL (cs : List Char) : List Char := cs.map Char.toLower

/-- `a.toLowerCase().startsWith(b.toLowerCase())` over char lists. -/
def isPrefixCI (p t : List Char) : Bool := toLowerL (t.take p.length) = toLowerL p

/-- `a.toLowerCase().endsWith(b.toLowerCase())` over char lists. -/
def isSuffixCI (p t : List Char) : Bool :=
  toLowerL (t.drop (t.length - p.length)) = toLowerL p ∧ p.length ≤ t.length

def aposS : String := String.mk [aposC]

/-- `prefixesToRemove` from `parseJsonFromResponse` (source order). -/
def prefixesToRemove : List String :=
  ["Here is the JSON response:",
   "Here" ++ aposS ++ "s the JSON response:",
   "The JSON response is:",
   "JSON response:",
   "Response:",
   "Here is the analysis:",
   "Here" ++ aposS ++ "s the analysis:",
   "Analysis:",
   "Result:",
   "Output:",
   "Based on the analysis:",
   "Based on the document analysis:",
   "After analyzing the document:",
   "The extracted data is:",
   "Extracted data:",
   "Document analysis result:",
   "Financial analysis result:",
   "Credit analysis result:"]

/-- `suffixesToRemove` from `parseJsonFromResponse` (source order). -/
def suffixesToRemove : List String :=
  ["This completes the analysis.",
   "End of analysis.",
   "Analysis complete.",
   "That" ++ aposS ++ "s the complete analysis.",
   "This is the final result.",
   "End of JSON response.",
   "End of response."]

/-- First matching prefix is removed (the loop `break`s), then `trim`. -/
def stripPrefixes (t : List Char) : List Char :=
  match prefixesToRemove.find? (fun p => isPrefixCI p.data t) with
  | some p => jsTrimList (t.drop p.data.length)
  | none => t

def stripSuffixes (t : List Char) : List Char :=
  match suffixesToRemove.find? (fun p => isSuffixCI p.data t) with
  | some p => jsTrimList (t.take (t.length - p.data.length))
  | none => t

/-- `cleanedText`: trim, then one prefix removal, then one suffix removal. -/
def cleanedTextOf (responseText : String) : List Char :=
  stripSuffixes (stripPrefixes (jsTrimList responseText.data))

/-- Method 1: direct `JSON.parse` of the cleaned text. -/
def method1 (t : List Char) : Option Json := jsonParse (String.mk t)

def tripleTick : List Char := [btickC, btickC, btickC]

def startsWithL (p t : List Char) : Bool := t.take p.length = p

def wsDrop (cs : List Char) : List Char := cs.dropWhile jsWsChar

/-- The lazy group `(\{[\s\S]*?\})` after its opening brace: stop at the
first closing brace whose remainder satisfies `closeOk` (the pattern text
after the group); keep expanding otherwise. -/
def lazyBody (closeOk : List Char → Bool) : List Char → List Char → Option (List Char)
  | _, [] => none
  | acc, c :: rest =>
    if c = rbraceC ∧ closeOk rest then some (lbraceC :: (acc.reverse ++ [rbraceC]))
    else lazyBody closeOk (c :: acc) rest

def closeTicks (r : List Char) : Bool := startsWithL tripleTick (wsDrop r)

def closeOneTick (r : List Char) : Bool := startsWithL [btickC] r

/-- One attempt of pattern 1 at the current position. -/
def tryP1At (t : List Char) : Option (List Char) :=
  if isPrefixCI (tripleTick ++ ['j', 's', 'o', 'n']) t then
    match wsDrop (t.drop 7) with
    | c :: rest => if c = lbraceC then lazyBody closeTicks [] rest else none
    | [] => none
  else none

/-- One attempt of pattern 2 at the current position. -/
def tryP2At (t : List Char) : Option (List Char) :=
  if startsWithL tripleTick t then
    match wsDrop (t.drop 3) with
    | c :: rest => if c = lbraceC then lazyBody closeTicks [] rest else none
    | [] => none
  else none

/-- One attempt of pattern 3 at the current position. -/
def tryP3At (t : List Char) : Option (List Char) :=
  match t with
  | b :: c :: rest =>
    if b = btickC ∧ c = lbraceC then lazyBody closeOneTick [] rest else none
  | _ => none

/-- Leftmost match of a pattern: try every start position left to right. -/
def scanFor (tryAt : List Char → Option (List Char)) : List Char → Option (List Char)
  | [] => none
  | c :: rest =>
    match tryAt (c :: rest) with
    | some g => some g
    | none => scanFor tryAt rest

/-- Method 2: the three code-block patterns are tried in order; the first
pattern that matches anywhere gets one `JSON.parse` attempt on its trimmed
group (a parse failure aborts the whole method — later patterns are not
tried, matching the `try` around the loop). -/
def method2 (t : List Char) : Option Json :=
  match scanFor tryP1At t <|> scanFor tryP2At t <|> scanFor tryP3At t with
  | some g => jsonParse (String.mk (jsTrimList g))
  | none => none

end Ollama

namespace Ollama

def notBrace (c : Char) : Bool := ¬ (c = lbraceC ∨ c = rbraceC)

/-- Depth-1 structure `\{[^{}]*\}` at the current position. -/
def matchB1 (cs : List Char) : Option (List Char × List Char) :=
  match cs with
  | c :: rest =>
    if c = lbraceC then
      let mid := rest.takeWhile notBrace
      match rest.drop mid.length with
      | d :: r2 =>
        if d = rbraceC then some (lbraceC :: (mid ++ [rbraceC]), r2) else none
      | [] => none
    else none
  | [] => none

/-- Body of `{(?:[^{}]|{[^{}]*})*}` after the opening brace, consuming
through the matching close. -/
def b2Body : ℕ → List Char → Option (List Char × List Char)
  | 0, _ => none
  | fuel + 1, cs =>
    let mid := cs.takeWhile notBrace
    match cs.drop mid.length with
    | [] => none
    | d :: r2 =>
      if d = rbraceC then some (mid ++ [rbraceC], r2)
      else
        match matchB1 (d :: r2) with
        | some (g, r3) =>
          match b2Body fuel r3 with
          | some (tl, r4) => some (mid ++ g ++ tl, r4)
          | none => none
        | none => none

def matchB2 (cs : List Char) : Option (List Char × List Char) :=
  match cs with
  | c :: rest =>
    if c = lbraceC then
      match b2Body (rest.length + 1) rest with
      | some (body, r) => some (lbraceC :: body, r)
      | none => none
    else none
  | [] => none

/-- Body of the method-3 pattern `\{(?:[^{}]|{(?:[^{}]|{[^{}]*})*})*\}`
after the opening brace. -/
def b3Body : ℕ → List Char → Option (List Char × List Char)
  | 0, _ => none
  | fuel + 1, cs =>
    let mid := cs.takeWhile notBrace
    match cs.drop mid.length with
    | [] => none
    | d :: r2 =>
      if d = rbraceC then some (mid ++ [rbraceC], r2)
      else
        match matchB2 (d :: r2) with
        | some (g, r3) =>
          match b3Body fuel r3 with
          | some (tl, r4) => some (mid ++ g ++ tl, r4)
          | none => none
        | none => none

def matchB3 (cs : List Char) : Option (List Char × List Char) :=
  match cs with
  | c :: rest =>
    if c = lbraceC then
      match b3Body (rest.length + 1) rest with
      | some (body, r) => some (lbraceC :: body, r)
      | none => none
    else none
  | [] => none

/-- All global matches of the method-3 pattern, left to right, resuming
after each match. -/
def scanB3 : ℕ → List Char → List (List Char)
  | 0, _ => []
  | fuel + 1, cs =>
    match cs with
    | [] => []
    | _ :: rest =>
      match matchB3 cs with
      | some (g, r) => g :: scanB3 fuel r
      | none => scanB3 fuel rest

/-- Try `JSON.parse` on the first `n` candidates, trimmed. -/
def tryParseList : List (List Char) → ℕ → Option Json
  | _, 0 => none
  | [], _ => none
  | g :: rest, n + 1 =>
    match jsonParse (String.mk (jsTrimList g)) with
    | some v => some v
    | none => tryParseList rest n

/-- Method 3: global depth-3 brace matches, stably sorted by length
descending, first 3 tried. -/
def method3 (t : List Char) : Option Json :=
  tryParseList
    (Pipeline.sortByCmp (fun a b : List Char => (b.length : ℤ) - (a.length : ℤ))
      (scanB3 (t.length + 1) t)) 3

def firstIdx (c : Char) (cs : List Char) : Option ℕ := cs.findIdx? (· = c)

def lastIdx (c : Char) (cs : List Char) : Option ℕ :=
  (cs.reverse.findIdx? (· = c)).map (fun i => cs.length - 1 - i)

/-- Method 4: substring from the first `{` to the last `}`. -/
def method4 (t : List Char) : Option Json :=
  match firstIdx lbraceC t, lastIdx rbraceC t with
  | some f, some l =>
    if l > f then jsonParse (String.mk ((t.drop f).take (l - f + 1))) else none
  | _, _ => none

/-- `/,\s*X/g → X` for `X` a closing bracket: one left-to-right pass,
resuming after each replacement. -/
def replCommaClose (close : Char) : ℕ → List Char → List Char
  | 0, cs => cs
  | _ + 1, [] => []
  | fuel + 1, c :: rest =>
    if c = ',' then
      let r := rest.dropWhile jsWsChar
      match r with
      | d :: r2 =>
        if d = close then close :: replCommaClose close fuel r2
        else c :: replCommaClose close fuel rest
      | [] => c :: replCommaClose close fuel rest
    else c :: replCommaClose close fuel rest

def replaceChar (a b : Char) (cs : List Char) : List Char :=
  cs.map (fun c => if c = a then b else c)

/-- `/\s+/g → ' '`. -/
def collapseWs : ℕ → List Char → List Char
  | 0, cs => cs
  | _ + 1, [] => []
  | fuel + 1, c :: rest =>
    if jsWsChar c then ' ' :: collapseWs fuel (rest.dropWhile jsWsChar)
    else c :: collapseWs fuel rest

/-- The regex class `\w`. -/
def isWordChar (c : Char) : Bool := c.isAlphanum ∨ c = '_'

/-- `/([{,]\s*)(\w+):/g → '$1"$2":'`. -/
def quoteKeys : ℕ → List Char → List Char
  | 0, cs => cs
  | _ + 1, [] => []
  | fuel + 1, c :: rest =>
    if c = lbraceC ∨ c = ',' then
      let ws := rest.takeWhile jsWsChar
      let r1 := rest.drop ws.length
      let w := r1.takeWhile isWordChar
      match w, r1.drop w.length with
      | _ :: _, ':' :: r3 =>
        c :: (ws ++ (dquoteC :: w) ++ (dquoteC :: ':' :: quoteKeys fuel r3))
      | _, _ => c :: quoteKeys fuel rest
    else c :: quoteKeys fuel rest

/-- `/:\s*'([^']*)'/g → ': "$1"'`. -/
def singleQuotes : ℕ → List Char → List Char
  | 0, cs => cs
  | _ + 1, [] => []
  | fuel + 1, c :: rest =>
    if c = ':' then
      let r1 := rest.dropWhile jsWsChar
      match r1 with
      | q :: r2 =>
        if q = aposC then
          let content := r2.takeWhile (fun ch => ¬ ch = aposC)
          match r2.drop content.length with
          | q2 :: r4 =>
            if q2 = aposC then
              ':' :: ' ' :: dquoteC :: (content ++ (dquoteC :: singleQuotes fuel r4))
            else ':' :: singleQuotes fuel rest
          | [] => ':' :: singleQuotes fuel rest
        else ':' :: singleQuotes fuel rest
      | [] => ':' :: singleQuotes fuel rest
    else c :: singleQuotes fuel rest

/-- Method 5: cut to the brace span, then the repair substitutions in
source order, trim, and one parse attempt. -/
def method5 (t : List Char) : Option Json :=
  let f1 := match firstIdx lbraceC t with
    | some i => if i > 0 then t.drop i else t
    | none => t
  let f2 := match lastIdx rbraceC f1 with
    | some l => if l < f1.length - 1 then f1.take (l + 1) else f1
    | none => f1
  let f3 := replCommaClose rbraceC (f2.length + 1) f2
  let f4 := replCommaClose ']' (f3.length + 1) f3
  let f5 := replaceChar '\t' ' ' (replaceChar '\r' ' ' (replaceChar '\n' ' ' f4))
  let f6 := collapseWs (f5.length + 1) f5
  let f7 := quoteKeys (f6.length + 1) f6
  let f8 := singleQuotes (f7.length + 1) f7
  jsonParse (String.mk (jsTrimList f8))

end Ollama

namespace Ollama

def splitLinesAux : List Char → List Char → List (List Char)
  | acc, [] => [acc.reverse]
  | acc, c :: rest =>
    if c = '\n' then acc.reverse :: splitLinesAux [] rest
    else splitLinesAux (c :: acc) rest

/-- `split('\n')`. -/
def splitLines (cs : List Char) : List (List Char) := splitLinesAux [] cs

/-- The method-6 line loop: a line containing `{` switches collection on
and adds its open-brace count; collected lines are the trimmed ones from
that point; a line containing `}` subtracts its close-brace count and
`break`s the loop when the count drops to 0 or below (also when collection
never started, since the count then goes negative). -/
def method6Aux : List (List Char) → Bool → ℤ → List (List Char)
  | [], _, _ => []
  | line :: rest, inJson, cnt =>
    let tl := jsTrimList line
    let hasOpen := tl.contains lbraceC
    let inJson' := inJson ∨ hasOpen
    let cnt' := if hasOpen then cnt + (tl.count lbraceC : ℤ) else cnt
    let hasClose := tl.contains rbraceC
    let cnt'' := if hasClose then cnt' - (tl.count rbraceC : ℤ) else cnt'
    (if inJson' then [tl] else []) ++
      (if hasClose ∧ cnt'' ≤ 0 then [] else method6Aux rest inJson' cnt'')

/-- Method 6: line-by-line reconstruction, joined with single spaces. -/
def method6 (t : List Char) : Option Json :=
  let ls := method6Aux (splitLines t) false 0
  if ls.isEmpty then none
  else jsonParse (String.mk (List.intercalate [' '] ls))

/-- `"key": "string value"`. -/
def tryA (cs : List Char) : Option ((String × String) × List Char) :=
  match cs with
  | q :: r1 =>
    if q = dquoteC then
      let w := r1.takeWhile isWordChar
      match w, r1.drop w.length with
      | _ :: _, q2 :: ':' :: r4 =>
        if q2 = dquoteC then
          let r5 := r4.dropWhile jsWsChar
          match r5 with
          | q3 :: r6 =>
            if q3 = dquoteC then
              let content := r6.takeWhile (fun ch => ¬ ch = dquoteC)
              match r6.drop content.length with
              | q4 :: r8 =>
                if q4 = dquoteC then some ((String.mk w, String.mk content), r8)
                else none
              | [] => none
            else none
          | [] => none
        else none
      | _, _ => none
    else none
  | [] => none

/-- The numeric token `\d+\.?\d*` at the current position. -/
def numToken (cs : List Char) : Option (List Char × List Char) :=
  let d1 := cs.takeWhile Char.isDigit
  if d1.isEmpty then none
  else
    match cs.drop d1.length with
    | '.' :: r2 =>
      let d2 := r2.takeWhile Char.isDigit
      some (d1 ++ ('.' :: d2), r2.drop d2.length)
    | r1 => some (d1, r1)

/-- `"key": number`. -/
def tryB (cs : List Char) : Option ((String × String) × List Char) :=
  match cs with
  | q :: r1 =>
    if q = dquoteC then
      let w := r1.takeWhile isWordChar
      match w, r1.drop w.length with
      | _ :: _, q2 :: ':' :: r4 =>
        if q2 = dquoteC then
          match numToken (r4.dropWhile jsWsChar) with
          | some (tok, r5) => some ((String.mk w, String.mk tok), r5)
          | none => none
        else none
      | _, _ => none
    else none
  | [] => none

def litToken (cs : List Char) : Option (List Char × List Char) :=
  if startsWithL ['t', 'r', 'u', 'e'] cs then some (['t', 'r', 'u', 'e'], cs.drop 4)
  else if startsWithL ['f', 'a', 'l', 's', 'e'] cs then
    some (['f', 'a', 'l', 's', 'e'], cs.drop 5)
  else if startsWithL ['n', 'u', 'l', 'l'] cs then some (['n', 'u', 'l', 'l'], cs.drop 4)
  else none

/-- `"key": true|false|null`. -/
def tryC (cs : List Char) : Option ((String × String) × List Char) :=
  match cs with
  | q :: r1 =>
    if q = dquoteC then
      let w := r1.takeWhile isWordChar
      match w, r1.drop w.length with
      | _ :: _, q2 :: ':' :: r4 =>
        if q2 = dquoteC then
          match litToken (r4.dropWhile jsWsChar) with
          | some (tok, r5) => some ((String.mk w, String.mk tok), r5)
          | none => none
        else none
      | _, _ => none
    else none
  | [] => none

/-- `key: "string value"` (unquoted key). -/
def tryD (cs : List Char) : Option ((String × String) × List Char) :=
  let w := cs.takeWhile isWordChar
  match w, cs.drop w.length with
  | _ :: _, ':' :: r2 =>
    let r3 := r2.dropWhile jsWsChar
    match r3 with
    | q :: r4 =>
      if q = dquoteC then
        let content := r4.takeWhile (fun ch => ¬ ch = dquoteC)
        match r4.drop content.length with
        | q2 :: r6 =>
          if q2 = dquoteC then some ((String.mk w, String.mk content), r6) else none
        | [] => none
      else none
    | [] => none
  | _, _ => none

/-- `key: number` (unquoted key). -/
def tryE (cs : List Char) : Option ((String × String) × List Char) :=
  let w := cs.takeWhile isWordChar
  match w, cs.drop w.length with
  | _ :: _, ':' :: r2 =>
    match numToken (r2.dropWhile jsWsChar) with
    | some (tok, r5) => some ((String.mk w, String.mk tok), r5)
    | none => none
  | _, _ => none

/-- All global matches of one pattern, left to right. -/
def scanPairs (tryAt : List Char → Option ((String × String) × List Char)) :
    ℕ → List Char → List (String × String)
  | 0, _ => []
  | fuel + 1, cs =>
    match cs with
    | [] => []
    | _ :: rest =>
      match tryAt cs with
      | some (kv, r) => kv :: scanPairs tryAt fuel r
      | none => scanPairs tryAt fuel rest

/-- `^\d+\.?\d*$`. -/
def numericShape (cs : List Char) : Bool :=
  let d1 := cs.takeWhile Char.isDigit
  !d1.isEmpty &&
    (match cs.drop d1.length with
     | [] => true
     | '.' :: r => r.all Char.isDigit
     | _ => false)

def digitsVal (cs : List Char) : ℚ :=
  cs.foldl (fun acc c => acc * 10 + ((c.toNat - '0'.toNat : ℕ) : ℚ)) 0

/-- `parseFloat` on a `\d+\.?\d*` token. -/
def parseFloatTok (cs : List Char) : ℚ :=
  let d1 := cs.takeWhile Char.isDigit
  match cs.drop d1.length with
  | '.' :: r => digitsVal d1 + digitsVal r / (10 : ℚ) ^ r.length
  | _ => digitsVal d1

/-- Method 7's value conversion. -/
def convertVal (v : String) : Json :=
  if v = "true" then .bool true
  else if v = "false" then .bool false
  else if v = "null" then .null
  else if numericShape v.data then .num (parseFloatTok v.data)
  else .str v

/-- Method 7: five key/value regexes scanned over the cleaned text in
order, assignments overwriting per JS object semantics; the flat map is
returned when at least one pair was found. -/
def method7 (t : List Char) : Option Json :=
  let pairs :=
    scanPairs tryA (t.length + 1) t ++ scanPairs tryB (t.length + 1) t ++
    scanPairs tryC (t.length + 1) t ++ scanPairs tryD (t.length + 1) t ++
    scanPairs tryE (t.length + 1) t
  let result := pairs.foldl (fun acc kv => setF acc kv.1 (convertVal kv.2)) []
  if result.isEmpty then none else some (.obj result)

/-- `parseJsonFromResponse`: cleanup, the seven recovery methods in order,
and the final thrown error (as `.error`) when all fail. -/
def parseJsonFromResponse (responseText : String) : Except String Json :=
  let t := cleanedTextOf responseText
  match method1 t <|> method2 t <|> method3 t <|> method4 t <|>
        method5 t <|> method6 t <|> method7 t with
  | some v => .ok v
  | none =>
    .error ("No valid JSON found in response after trying all parsing methods. Response length: "
      ++ toString responseText.length)

end Ollama

namespace Ollama

/-- Property read, `v.k`: throws (`.error`) on `null`, looks up the
field/prop list on objects and arrays, and yields `undefined` (modelled
`.null`, identically falsy) on other primitives. -/
def jsGetField : Json → String → Except Unit Json
  | .null, _ => .error ()
  | .obj fields, k => .ok ((fields.lookup k).getD .null)
  | .arr _ props, k => .ok ((props.lookup k).getD .null)
  | _, _ => .ok .null

/-- Property write, `v.k = x`: updates objects and arrays; a write on a
primitive throws a strict-mode TypeError (`.error`), as the module code
runs in ES-module strict mode. -/
def jsSetField : Json → String → Json → Except Unit Json
  | .obj fields, k, v => .ok (.obj (setF fields k v))
  | .arr xs props, k, v => .ok (.arr xs (setF props k v))
  | _, _, _ => .error ()

/-- JS truthiness of a parsed value (`NaN`/`undefined` are not
producible by `JSON.parse`; `undefined` reads come back as `.null`). -/
def jsonTruthy : Json → Bool
  | .null => false
  | .bool b => b
  | .num q => q ≠ 0
  | .str s => s ≠ ""
  | .arr _ _ => true
  | .obj _ => true

/-- `typeof v === 'number'`. -/
def isNumJson : Json → Bool
  | .num _ => true
  | _ => false

/-- The default structure built in `extractDataFromImage`'s catch when
`parseJsonFromResponse` throws. -/
def fallbackRecord (rawResponse parseError now : String) : Json :=
  .obj [("documentType", .str "Unknown"),
        ("companyInfo", .obj []),
        ("personalInfo", .obj [("individuals", .arr [] [])]),
        ("financialInfo", .obj
          [("profitLoss", .obj []),
           ("balanceSheet", .obj []),
           ("bankStatements", .arr [] []),
           ("creditInfo", .obj [("creditHistory", .arr [] [])]),
           ("cashFlow", .obj [])]),
        ("extractionDate", .str now),
        ("confidence", .num (1 / 10)),
        ("rawResponse", .str rawResponse),
        ("parseError", .str parseError)]

/-- The "ensure required fields" block: default a falsy `extractionDate`
to the current timestamp, coerce a non-`number` `confidence` to 0.5.
A thrown TypeError is `.error`. -/
def normalizeRecord (v : Json) (now : String) : Except Unit Json :=
  match jsGetField v "extractionDate" with
  | .error () => .error ()
  | .ok dv =>
    match (if jsonTruthy dv then .ok v
           else jsSetField v "extractionDate" (.str now) : Except Unit Json) with
    | .error () => .error ()
    | .ok d1 =>
      match jsGetField d1 "confidence" with
      | .error () => .error ()
      | .ok cv =>
        if isNumJson cv then .ok d1 else jsSetField d1 "confidence" (.num (1 / 2))

/-- The parse-and-normalize stage of `extractDataFromImage` (network and
file-system effects around it abstracted away): `response` is the raw
`result.response` text, `now` the `new Date().toISOString()` timestamp.
A parse failure is swallowed by the inner catch and replaced with the
default structure; errors escaping afterwards are rethrown by the outer
catch as `Failed to extract data from image: ...`. -/
def extractedOf (response now : String) : Json :=
  match parseJsonFromResponse (jsTrim response) with
  | .ok v => v
  | .error e => fallbackRecord response e now

def extractDataFromImage (response now : String) : Except String Json :=
  match normalizeRecord (extractedOf response now) now with
  | .ok r => .ok r
  | .error () => .error "Failed to extract data from image: TypeError"

end Ollama

namespace Ollama

/-- Field read on a property list, `undefined` as `.null`. -/
def lookF (fields : List (String × Json)) (k : String) : Json :=
  (fields.lookup k).getD .null

/-- Required-field invariant of C10: a truthy `extractionDate` and a
`number` `confidence`. -/
def hasRequiredFields (r : Json) : Prop :=
  (∃ dv, jsGetField r "extractionDate" = .ok dv ∧ jsonTruthy dv) ∧
  (∃ cv, jsGetField r "confidence" = .ok cv ∧ isNumJson cv)

theorem lookF_cons (k₀ : String) (v₀ : Json) (rest : List (String × Json))
    (k : String) :
    lookF ((k₀, v₀) :: rest) k = if k₀ = k then v₀ else lookF rest k := by
  simp only [lookF, List.lookup]
  by_cases h : k₀ = k
  · subst h
    simp
  · have hb : (k == k₀) = false := by
      simp only [beq_eq_false_iff_ne, ne_eq]
      exact Ne.symm h
    simp [hb, h]

theorem lookF_setF_self : ∀ (m : List (String × Json)) (k : String) (v : Json),
    lookF (setF m k v) k = v
  | [], k, v => by simp [setF, lookF_cons]
  | (k', v') :: rest, k, v => by
      by_cases h : k' = k
      · subst h
        simp [setF, lookF_cons]
      · simp [setF, h, lookF_cons, lookF_setF_self rest k v]

theorem lookF_setF_ne : ∀ (m : List (String × Json)) (k' k : String) (v : Json),
    k' ≠ k → lookF (setF m k' v) k = lookF m k
  | [], k', k, v, h => by
      rw [setF, lookF_cons, if_neg h]
  | (k₀, v₀) :: rest, k', k, v, h => by
      by_cases h0 : k₀ = k'
      · subst h0
        simp [setF, lookF_cons, h]
      · simp only [setF, if_neg h0, lookF_cons]
        by_cases hk : k₀ = k
        · simp [hk]
        · simp [hk, lookF_setF_ne rest k' k v h]

theorem jsGetField_obj (fields : List (String × Json)) (k : String) :
    jsGetField (.obj fields) k = .ok (lookF fields k) := rfl

theorem jsGetField_arr (xs : List Json) (props : List (String × Json)) (k : String) :
    jsGetField (.arr xs props) k = .ok (lookF props k) := rfl

end Ollama

namespace Ollama

theorem normalizeRecord_ok (v : Json) (now : String) (hnow : now ≠ "") (r : Json)
    (h : normalizeRecord v now = .ok r) : hasRequiredFields r := by
  have hsnow : jsonTruthy (.str now) = true := by
    simp [jsonTruthy, hnow]
  cases v with
  | null => simp [normalizeRecord, jsGetField] at h
  | bool b => simp [normalizeRecord, jsGetField, jsonTruthy, jsSetField] at h
  | num q => simp [normalizeRecord, jsGetField, jsonTruthy, jsSetField] at h
  | str s => simp [normalizeRecord, jsGetField, jsonTruthy, jsSetField] at h
  | obj fields =>
    by_cases hd : jsonTruthy (lookF fields "extractionDate") = true
    · by_cases hc : isNumJson (lookF fields "confidence") = true
      · simp only [normalizeRecord, jsGetField_obj, hd, if_pos, if_true, hc] at h
        cases h
        exact ⟨⟨_, jsGetField_obj _ _, hd⟩, ⟨_, jsGetField_obj _ _, hc⟩⟩
      · simp only [normalizeRecord, jsGetField_obj, hd, if_true, hc, if_false,
          Bool.false_eq_true, jsSetField] at h
        cases h
        refine ⟨⟨_, jsGetField_obj _ _, ?_⟩, ⟨_, jsGetField_obj _ _, ?_⟩⟩
        · rw [lookF_setF_ne _ _ _ _ (by decide)]
          exact hd
        · rw [lookF_setF_self]
          rfl
    · simp only [normalizeRecord, jsGetField_obj, hd, Bool.false_eq_true, if_false,
        jsSetField, jsGetField_obj] at h
      by_cases hc : isNumJson (lookF (setF fields "extractionDate" (.str now)) "confidence") = true
      · rw [if_pos hc] at h
        cases h
        refine ⟨⟨_, jsGetField_obj _ _, ?_⟩, ⟨_, jsGetField_obj _ _, hc⟩⟩
        rw [lookF_setF_self]
        exact hsnow
      · rw [if_neg hc] at h
        cases h
        refine ⟨⟨_, jsGetField_obj _ _, ?_⟩, ⟨_, jsGetField_obj _ _, ?_⟩⟩
        · rw [lookF_setF_ne _ _ _ _ (by decide), lookF_setF_self]
          exact hsnow
        · rw [lookF_setF_self]
          rfl
  | arr xs props =>
    by_cases hd : jsonTruthy (lookF props "extractionDate") = true
    · by_cases hc : isNumJson (lookF props "confidence") = true
      · simp only [normalizeRecord, jsGetField_arr, hd, if_pos, if_true, hc] at h
        cases h
        exact ⟨⟨_, jsGetField_arr _ _ _, hd⟩, ⟨_, jsGetField_arr _ _ _, hc⟩⟩
      · simp only [normalizeRecord, jsGetField_arr, hd, if_true, hc, if_false,
          Bool.false_eq_true, jsSetField] at h
        cases h
        refine ⟨⟨_, jsGetField_arr _ _ _, ?_⟩, ⟨_, jsGetField_arr _ _ _, ?_⟩⟩
        · rw [lookF_setF_ne _ _ _ _ (by decide)]
          exact hd
        · rw [lookF_setF_self]
          rfl
    · simp only [normalizeRecord, jsGetField_arr, hd, Bool.false_eq_true, if_false,
        jsSetField, jsGetField_arr] at h
      by_cases hc : isNumJson (lookF (setF props "extractionDate" (.str now)) "confidence") = true
      · rw [if_pos hc] at h
        cases h
        refine ⟨⟨_, jsGetField_arr _ _ _, ?_⟩, ⟨_, jsGetField_arr _ _ _, hc⟩⟩
        rw [lookF_setF_self]
        exact hsnow
      · rw [if_neg hc] at h
        cases h
        refine ⟨⟨_, jsGetField_arr _ _ _, ?_⟩, ⟨_, jsGetField_arr _ _ _, ?_⟩⟩
        · rw [lookF_setF_ne _ _ _ _ (by decide), lookF_setF_self]
          exact hsnow
        · rw [lookF_setF_self]
          rfl

end Ollama

namespace Ollama

theorem normalizeRecord_conf (v : Json) (now : String) (r cv : Json)
    (h : normalizeRecord v now = .ok r)
    (hcv : jsGetField v "confidence" = .ok cv) (hnum : isNumJson cv = false) :
    jsGetField r "confidence" = .ok (.num (1 / 2)) := by
  cases v with
  | null => simp [jsGetField] at hcv
  | bool b => simp [normalizeRecord, jsGetField, jsonTruthy, jsSetField] at h
  | num q => simp [normalizeRecord, jsGetField, jsonTruthy, jsSetField] at h
  | str s => simp [normalizeRecord, jsGetField, jsonTruthy, jsSetField] at h
  | obj fields =>
    rw [jsGetField_obj] at hcv
    cases hcv
    by_cases hd : jsonTruthy (lookF fields "extractionDate") = true
    · simp only [normalizeRecord, jsGetField_obj, hd, if_true, hnum,
        Bool.false_eq_true, if_false, jsSetField] at h
      cases h
      rw [jsGetField_obj, lookF_setF_self]
    · simp only [normalizeRecord, jsGetField_obj, hd, Bool.false_eq_true, if_false,
        jsSetField, jsGetField_obj,
        lookF_setF_ne fields "extractionDate" "confidence" (.str now) (by decide),
        hnum] at h
      cases h
      rw [jsGetField_obj, lookF_setF_self]
  | arr xs props =>
    rw [jsGetField_arr] at hcv
    cases hcv
    by_cases hd : jsonTruthy (lookF props "extractionDate") = true
    · simp only [normalizeRecord, jsGetField_arr, hd, if_true, hnum,
        Bool.false_eq_true, if_false, jsSetField] at h
      cases h
      rw [jsGetField_arr, lookF_setF_self]
    · simp only [normalizeRecord, jsGetField_arr, hd, Bool.false_eq_true, if_false,
        jsSetField, jsGetField_arr,
        lookF_setF_ne props "extractionDate" "confidence" (.str now) (by decide),
        hnum] at h
      cases h
      rw [jsGetField_arr, lookF_setF_self]

theorem normalizeRecord_fallback (resp e now : String) :
    normalizeRecord (fallbackRecord resp e now) now = .ok (fallbackRecord resp e now) := by
  by_cases hn : now = ""
  · subst hn
    rfl
  · have hsnow : jsonTruthy (.str now) = true := by
      simp [jsonTruthy, hn]
    have hdate : jsGetField (fallbackRecord resp e now) "extractionDate" =
        .ok (.str now) := rfl
    have hconf : jsGetField (fallbackRecord resp e now) "confidence" =
        .ok (.num (1 / 10)) := rfl
    simp only [normalizeRecord, hdate, hsnow, if_true, hconf]
    rfl

end Ollama

namespace Ollama

/-- A parse failure is swallowed: the inner catch substitutes the default
structure and the normalization leaves it unchanged. -/
theorem extract_of_parse_error (resp now e : String)
    (h : parseJsonFromResponse (jsTrim resp) = .error e) :
    extractDataFromImage resp now = .ok (fallbackRecord resp e now) := by
  have hx : extractedOf resp now = fallbackRecord resp e now := by
    unfold extractedOf
    rw [h]
  unfold extractDataFromImage
  rw [hx, normalizeRecord_fallback]

/-- Inversion of a successful `extractDataFromImage` run. -/
theorem extract_ok_inv (resp now : String) (r : Json)
    (h : extractDataFromImage resp now = .ok r) :
    ∃ v, normalizeRecord v now = .ok r ∧
      (parseJsonFromResponse (jsTrim resp) = .ok v ∨
       ∃ e, parseJsonFromResponse (jsTrim resp) = .error e ∧
         v = fallbackRecord resp e now) := by
  cases hp : parseJsonFromResponse (jsTrim resp) with
  | ok v =>
    have hx : extractedOf resp now = v := by
      unfold extractedOf
      rw [hp]
    unfold extractDataFromImage at h
    rw [hx] at h
    refine ⟨v, ?_, Or.inl rfl⟩
    cases hN : normalizeRecord v now with
    | ok r' =>
      rw [hN] at h
      cases h
      rfl
    | error u =>
      rw [hN] at h
      cases h
  | error e =>
    have hx : extractedOf resp now = fallbackRecord resp e now := by
      unfold extractedOf
      rw [hp]
    unfold extractDataFromImage at h
    rw [hx] at h
    refine ⟨fallbackRecord resp e now, ?_, Or.inr ⟨e, rfl, rfl⟩⟩
    cases hN : normalizeRecord (fallbackRecord resp e now) now with
    | ok r' =>
      rw [hN] at h
      cases h
      rfl
    | error u =>
      rw [hN] at h
      cases h

end Ollama

namespace Ollama

/-- C1 (amended): a recovery failure does NOT reach the caller of
`extractDataFromImage`: whenever `parseJsonFromResponse` fails on the
trimmed response text with message `e`, `extractDataFromImage` succeeds,
silently returning the default structure — documentType "Unknown",
confidence 0.1, the raw response and parse error attached. -/
theorem recovery_error_swallowed_default (resp now e : String)
    (h : parseJsonFromResponse (jsTrim resp) = .error e) :
    extractDataFromImage resp now = .ok (fallbackRecord resp e now) ∧
    jsGetField (fallbackRecord resp e now) "documentType" = .ok (.str "Unknown") ∧
    jsGetField (fallbackRecord resp e now) "confidence" = .ok (.num (1 / 10)) :=
  ⟨extract_of_parse_error resp now e h, rfl, rfl⟩

/-- Witness for C1's theorem at the concrete response "hello world". -/
theorem recovery_error_swallowed_default_witness :
    parseJsonFromResponse (jsTrim "hello world") = .error
      "No valid JSON found in response after trying all parsing methods. Response length: 11" ∧
    extractDataFromImage "hello world" "T" = .ok (fallbackRecord "hello world"
      "No valid JSON found in response after trying all parsing methods. Response length: 11"
      "T") :=
  ⟨rfl, (recovery_error_swallowed_default "hello world" "T" _ rfl).1⟩

/-- C1 counterexample: on the structure-free response "hello world" every
recovery method fails — `parseJsonFromResponse` throws — yet
`extractDataFromImage` returns a record (the silent default, documentType
"Unknown"), so the failure never reaches its caller. -/
theorem recovery_swallowed_cex :
    parseJsonFromResponse "hello world" = .error
      "No valid JSON found in response after trying all parsing methods. Response length: 11" ∧
    extractDataFromImage "hello world" "T" = .ok (fallbackRecord "hello world"
      "No valid JSON found in response after trying all parsing methods. Response length: 11"
      "T") ∧
    jsGetField (fallbackRecord "hello world"
      "No valid JSON found in response after trying all parsing methods. Response length: 11"
      "T") "documentType" = .ok (.str "Unknown") :=
  ⟨rfl, rfl, rfl⟩

/-- C10: every record returned by `extractDataFromImage` (with a nonempty
timestamp, as `toISOString` always is) has a truthy `extractionDate` and a
`number` `confidence`; on parse failure the returned record is exactly the
fallback — documentType "Unknown", confidence 0.1, empty sub-structures —
and a successfully parsed record whose `confidence` is not a number has it
coerced to 0.5. -/
theorem extract_record_invariants (resp now : String) (hnow : now ≠ "") :
    (∀ r, extractDataFromImage resp now = .ok r → hasRequiredFields r) ∧
    (∀ e, parseJsonFromResponse (jsTrim resp) = .error e →
      extractDataFromImage resp now = .ok (fallbackRecord resp e now) ∧
      jsGetField (fallbackRecord resp e now) "documentType" = .ok (.str "Unknown") ∧
      jsGetField (fallbackRecord resp e now) "confidence" = .ok (.num (1 / 10)) ∧
      jsGetField (fallbackRecord resp e now) "companyInfo" = .ok (.obj []) ∧
      jsGetField (fallbackRecord resp e now) "personalInfo" =
        .ok (.obj [("individuals", .arr [] [])]) ∧
      jsGetField (fallbackRecord resp e now) "financialInfo" = .ok (.obj
        [("profitLoss", .obj []), ("balanceSheet", .obj []),
         ("bankStatements", .arr [] []),
         ("creditInfo", .obj [("creditHistory", .arr [] [])]),
         ("cashFlow", .obj [])])) ∧
    (∀ v cv r, parseJsonFromResponse (jsTrim resp) = .ok v →
      jsGetField v "confidence" = .ok cv → isNumJson cv = false →
      extractDataFromImage resp now = .ok r →
      jsGetField r "confidence" = .ok (.num (1 / 2))) := by
  refine ⟨?_, ?_, ?_⟩
  · intro r h
    obtain ⟨v, hN, _⟩ := extract_ok_inv resp now r h
    exact normalizeRecord_ok v now hnow r hN
  · intro e he
    exact ⟨extract_of_parse_error resp now e he, rfl, rfl, rfl, rfl, rfl⟩
  · intro v cv r hv hcv hnum h
    obtain ⟨v', hN, hcase⟩ := extract_ok_inv resp now r h
    rcases hcase with hok | ⟨e, herr, _⟩
    · rw [hv] at hok
      cases hok
      exact normalizeRecord_conf _ _ _ _ hN hcv hnum
    · rw [hv] at herr
      cases herr

/-- Witness for C10's theorem: a parsed record missing both fields gets
`extractionDate` defaulted and `confidence` coerced to 0.5. -/
theorem extract_record_invariants_witness :
    extractDataFromImage "\x7b\"a\": \"x\"\x7d" "T" =
      .ok (.obj [("a", .str "x"), ("extractionDate", .str "T"),
                 ("confidence", .num (1 / 2))]) ∧
    hasRequiredFields (.obj [("a", .str "x"), ("extractionDate", .str "T"),
                 ("confidence", .num (1 / 2))]) :=
  ⟨rfl, (extract_record_invariants "\x7b\"a\": \"x\"\x7d" "T" (by decide)).1 _ rfl⟩

end Ollama
